import Mathlib

/-!
Verification development for the webmock recorder/replay proxy.

Rust source is shallowly embedded in Lean:
* byte buffers (`Vec<u8>`, `&[u8]`) are `List Nat` with elements `< 256`;
* Rust `String` values are Lean `String`s where only string operations are at
  stake (matcher, header handling), and UTF-8 byte lists (`List Nat`) where the
  byte-level codec is at stake (MessagePack / base64 serialization);
* `HashMap<String, String>` is an association list `List (String × String)`
  (resp. of byte strings for the codec); map iteration visits the list in
  order;
* fallible Rust functions return `Option`;
* third-party crates that the source calls (`flate2` gzip, `serde_json`
  parsing, `mime_guess`, the `url` crate) are modelled explicitly where their
  observable behaviour matters and are otherwise passed in as function
  parameters; each such modelling choice is documented at the definition.
-/

namespace WebMock

/-! ## Byte-level helpers -/

/-- Byte codes of a pure-ASCII Lean string literal (used for the ASCII search
patterns and magic numbers appearing in the source). -/
def ascii (s : String) : List Nat :=
  s.data.map Char.toNat

/-- Model of Rust `u8::is_ascii_whitespace`: space, tab, LF, FF, CR. -/
def isAsciiWs (b : Nat) : Bool :=
  b == 0x20 || b == 0x09 || b == 0x0a || b == 0x0c || b == 0x0d

/-- ASCII-lowercase a single byte (A–Z mapped to a–z, others unchanged). -/
def asciiLowerByte (b : Nat) : Nat :=
  if 65 ≤ b ∧ b ≤ 90 then b + 32 else b

/-- ASCII-lowercase a Lean string (model of Rust `str::to_lowercase`, which
agrees on the ASCII header names and URLs at stake; Unicode-only case
mappings are not modelled). -/
def strToLower (s : String) : String :=
  (s.data.map Char.toLower).asString

/-- Byte-prefix test on strings (Rust `str::starts_with`). -/
def strStartsWith (s pat : String) : Bool :=
  pat.data.isPrefixOf s.data

/-- Does `pat` occur as a contiguous subsequence of the buffer?  Models Rust
`str::contains` for the ASCII patterns used by the detectors. -/
def containsSeq (pat : List Nat) : List Nat → Bool
  | [] => pat.isEmpty
  | b :: rest => pat.isPrefixOf (b :: rest) || containsSeq pat rest

/-- ASCII-lowercase a whole byte buffer.  This models
`String::from_utf8_lossy(body).to_lowercase()` from
`src/capture/proxy/content_type/text.rs` at the byte level: lossy decoding
keeps ASCII bytes unchanged and maps invalid sequences to U+FFFD (whose UTF-8
bytes are all ≥ 0x80, so they can never produce the ASCII search patterns),
and Unicode lowercasing agrees with ASCII lowercasing on the ASCII range. -/
def lowerBytes (body : List Nat) : List Nat :=
  body.map asciiLowerByte

/-! ## Content-type inference (`src/capture/proxy/content_type/`) -/

namespace TextDetector

/-- Embedding of `TextDetector::is_likely_html`. -/
def is_likely_html (body : List Nat) : Bool :=
  if body.length < 5 then false
  else
    let text := lowerBytes body
    (ascii "<!doctype html").isPrefixOf text ||
      (ascii "<html").isPrefixOf text ||
      containsSeq (ascii "<html>") text ||
      containsSeq (ascii "</html>") text

/-- Embedding of `TextDetector::is_likely_json`.  The call
`String::from_utf8_lossy(body).parse::<serde_json::Value>().is_ok()` invokes
the external `serde_json` crate; it is passed in as the oracle `jsonOk`. -/
def is_likely_json (jsonOk : List Nat → Bool) (body : List Nat) : Bool :=
  if body.isEmpty then false
  else
    let trimmed :=
      (body.dropWhile (fun b => isAsciiWs b)).takeWhile
        (fun b => !isAsciiWs b || body.length < 2)
    match trimmed with
    | [] => false
    | t0 :: _ => (t0 == 123 || t0 == 91) && jsonOk body

/-- Embedding of `TextDetector::is_likely_xml` (ASCII model of
`from_utf8_lossy` + `trim_start`, cf. `lowerBytes`). -/
def is_likely_xml (body : List Nat) : Bool :=
  if body.length < 5 then false
  else
    let ts := body.dropWhile (fun b => isAsciiWs b)
    (ascii "<?xml").isPrefixOf ts ||
      ((ascii "<").isPrefixOf ts && containsSeq (ascii "</") body)

/-- Decode a UTF-8 byte list to its scalar values, or `none` when the buffer
is not valid UTF-8.  Models `std::str::from_utf8` plus `str::chars` (strict:
rejects overlong forms, surrogates, and values above U+10FFFF). -/
def utf8Chars : List Nat → Option (List Nat)
  | [] => some []
  | b :: rest =>
    if b < 0x80 then (utf8Chars rest).map (fun cs => b :: cs)
    else if b < 0xc2 then none
    else if b < 0xe0 then
      match rest with
      | b2 :: r =>
        if 0x80 ≤ b2 ∧ b2 ≤ 0xbf then
          (utf8Chars r).map (fun cs => ((b - 0xc0) * 64 + (b2 - 0x80)) :: cs)
        else none
      | [] => none
    else if b < 0xf0 then
      match rest with
      | b2 :: b3 :: r =>
        let lo2 := if b == 0xe0 then 0xa0 else 0x80
        let hi2 := if b == 0xed then 0x9f else 0xbf
        if (lo2 ≤ b2 ∧ b2 ≤ hi2) ∧ (0x80 ≤ b3 ∧ b3 ≤ 0xbf) then
          (utf8Chars r).map
            (fun cs => ((b - 0xe0) * 4096 + (b2 - 0x80) * 64 + (b3 - 0x80)) :: cs)
        else none
      | _ => none
    else if b < 0xf5 then
      match rest with
      | b2 :: b3 :: b4 :: r =>
        let lo2 := if b == 0xf0 then 0x90 else 0x80
        let hi2 := if b == 0xf4 then 0x8f else 0xbf
        if (lo2 ≤ b2 ∧ b2 ≤ hi2) ∧ (0x80 ≤ b3 ∧ b3 ≤ 0xbf) ∧ (0x80 ≤ b4 ∧ b4 ≤ 0xbf) then
          (utf8Chars r).map
            (fun cs =>
              ((b - 0xf0) * 262144 + (b2 - 0x80) * 4096 + (b3 - 0x80) * 64 + (b4 - 0x80)) :: cs)
        else none
      | _ => none
    else none

/-- Rust `char::is_ascii_graphic || char::is_ascii_whitespace` on a scalar
value: printable ASCII (0x21–0x7e), or space, tab, LF, FF, CR. -/
def isPrintableOrWs (c : Nat) : Bool :=
  (0x21 ≤ c && c ≤ 0x7e) || c == 0x20 || c == 0x09 || c == 0x0a || c == 0x0c || c == 0x0d

/-- Embedding of `TextDetector::is_likely_text`.  The 80% ratio test
`(printable as f64 / total as f64) >= 0.8` is modelled exactly as the rational
comparison `5 * printable ≥ 4 * total` (for the counts that occur here the
`f64` division is exact enough that the two agree). -/
def is_likely_text (body : List Nat) : Bool :=
  if body.isEmpty then true
  else
    match utf8Chars body with
    | none => false
    | some cs =>
      if cs.length == 0 then true
      else 5 * (cs.filter isPrintableOrWs).length ≥ 4 * cs.length

end TextDetector

namespace ImageDetector

/-- Embedding of `ImageDetector::is_likely_image` (signature test on the first
four bytes). -/
def is_likely_image (body : List Nat) : Bool :=
  if body.length < 4 then false
  else
    match body.take 4 with
    | [0xff, 0xd8, 0xff, _] => true
    | [0x89, 0x50, 0x4e, 0x47] => true
    | [0x47, 0x49, 0x46, 0x38] => true
    | [0x52, 0x49, 0x46, 0x46] => true
    | [0x42, 0x4d, _, _] => true
    | _ => false

/-- Embedding of `ImageDetector::detect_image_type`. -/
def detect_image_type (body : List Nat) : String :=
  if body.length < 4 then "image/unknown"
  else
    match body.take 4 with
    | [0xff, 0xd8, 0xff, _] => "image/jpeg"
    | [0x89, 0x50, 0x4e, 0x47] => "image/png"
    | [0x47, 0x49, 0x46, 0x38] => "image/gif"
    | [0x52, 0x49, 0x46, 0x46] =>
      if body.length ≥ 12 && ((body.drop 8).take 4 == ascii "WEBP") then "image/webp"
      else "image/unknown"
    | [0x42, 0x4d, _, _] => "image/bmp"
    | _ => "image/unknown"

end ImageDetector

namespace ContentTypeHelper

/-- Embedding of `ContentTypeHelper::detect_from_body` (the sniffing cascade of
`src/capture/proxy/content_type/detection.rs`). -/
def detect_from_body (jsonOk : List Nat → Bool) (body : List Nat) : String :=
  if body.isEmpty then "application/octet-stream"
  else if TextDetector.is_likely_html body then "text/html"
  else if TextDetector.is_likely_json jsonOk body then "application/json"
  else if TextDetector.is_likely_xml body then "application/xml"
  else if ImageDetector.is_likely_image body then ImageDetector.detect_image_type body
  else if TextDetector.is_likely_text body then "text/plain"
  else "application/octet-stream"

end ContentTypeHelper

/-! ## URL model

The source relies on the external `url` crate (WHATWG URL) for splitting an
absolute URL into scheme / host / port / path / query.  The model below
implements that split for the URL shapes the proxy and the matcher exercise:
`scheme://[userinfo@]host[:port][/path][?query][#fragment]`.  WHATWG details
that never matter to the claims are simplified and documented here: percent
decoding, IDNA/punycode and dot-segment removal are not performed; IPv6
bracket hosts are rejected; a URL without the `://` separator is rejected
(the crate would parse `scheme:opaque-path` forms).  As in the crate, scheme
and host are ASCII-lowercased, an empty host is a parse error, a non-numeric
or out-of-range port is a parse error, an empty port is ignored, the default
port of the scheme is dropped, and an absent path reads back as `/`. -/

namespace UrlModel

structure ParsedUrl where
  scheme : String
  host : String
  port : Option Nat
  path : String
  query : Option String
deriving DecidableEq

/-- Split a character list at the first `://`, failing when the first `:` is
not followed by `//` or when no `:` occurs. -/
def splitSchemeSep : List Char → Option (List Char × List Char)
  | [] => none
  | c :: rest =>
    if c == ':' then
      match rest with
      | '/' :: '/' :: r => some ([], r)
      | _ => none
    else (splitSchemeSep rest).map (fun p => (c :: p.1, p.2))

/-- Split a character list on every occurrence of `sep`. -/
def splitAllOn (sep : Char) : List Char → List (List Char)
  | [] => [[]]
  | c :: rest =>
    if c == sep then [] :: splitAllOn sep rest
    else
      match splitAllOn sep rest with
      | [] => [[c]]
      | g :: gs => (c :: g) :: gs

/-- Digits-only numeral parse (no sign, no other characters). -/
def parseDigits (cs : List Char) : Option Nat :=
  if cs.isEmpty || !cs.all Char.isDigit then none
  else some (cs.foldl (fun a c => a * 10 + (c.toNat - 48)) 0)

def isSchemeChar (c : Char) : Bool :=
  c.isAlphanum || c == '+' || c == '-' || c == '.'

/-- Parse the authority section into host and optional port. -/
def parseAuthority (auth : List Char) : Option (List Char × Option Nat) :=
  let hp := (splitAllOn '@' auth).getLastD []
  if hp.contains '[' || hp.contains ']' then none
  else
    match splitAllOn ':' hp with
    | [h] => if h.isEmpty then none else some (h.map Char.toLower, none)
    | [h, p] =>
      if h.isEmpty then none
      else if p.isEmpty then some (h.map Char.toLower, none)
      else
        match parseDigits p with
        | some n => if n < 65536 then some (h.map Char.toLower, some n) else none
        | none => none
    | _ => none

/-- Parse the part after the authority into path and optional query;
fragments are discarded. -/
def parsePathQuery (r : List Char) : List Char × Option (List Char) :=
  match r with
  | '/' :: _ =>
    let path := r.takeWhile (fun c => c != '?' && c != '#')
    let rest := r.dropWhile (fun c => c != '?' && c != '#')
    match rest with
    | '?' :: q => (path, some (q.takeWhile (fun c => c != '#')))
    | _ => (path, none)
  | '?' :: q => (['/'], some (q.takeWhile (fun c => c != '#')))
  | _ => (['/'], none)

/-- Model of `url::Url::parse` followed by the accessors `scheme()`,
`host_str()`, `port()`, `path()`, `query()` (see the namespace comment for
the simplifications). -/
def parse (s : String) : Option ParsedUrl := do
  let (schemeCs, rest) ← splitSchemeSep s.data
  if schemeCs.isEmpty || !schemeCs.all isSchemeChar then none
  else
    let scheme := (schemeCs.map Char.toLower).asString
    let auth := rest.takeWhile (fun c => c != '/' && c != '?' && c != '#')
    let r := rest.dropWhile (fun c => c != '/' && c != '?' && c != '#')
    let (hostCs, port) ← parseAuthority auth
    let (pathCs, queryCs) := parsePathQuery r
    let port :=
      if (scheme == "https" && port == some 443) || (scheme == "http" && port == some 80) then
        none
      else port
    some
      { scheme := scheme
        host := hostCs.asString
        port := port
        path := pathCs.asString
        query := queryCs.map List.asString }

end UrlModel

/-! ## Snapshot store paths (`src/storage/mod.rs`) -/

namespace Storage

/-- Embedding of `Storage::get_snapshot_path`:
`base_path.join("snapshots").join(format!("{}.msgpack", name))`.  `PathBuf`
joining of the relative components is modelled as `/`-separated
concatenation. -/
def get_snapshot_path (basePath name : String) : String :=
  basePath ++ "/" ++ "snapshots" ++ "/" ++ (name ++ ".msgpack")

/-- A flat in-memory file system: path ↦ contents. -/
def Fs := List (String × List Nat)

/-- Writing the serialized snapshot bytes at the snapshot path (the write
performed by `Storage::save_snapshot`; an existing file is overwritten). -/
def save_snapshot_file (fs : Fs) (basePath name : String) (data : List Nat) : Fs :=
  (get_snapshot_path basePath name, data) :: (fs : List _).filter (fun e => e.1 != get_snapshot_path basePath name)

/-- Reading the file that `Storage::load_snapshot` deserializes:
the contents stored at the snapshot path, or `none` (`SnapshotNotFound`)
when absent. -/
def load_snapshot_file (fs : Fs) (basePath name : String) : Option (List Nat) :=
  ((fs : List _).find? (fun e => e.1 == get_snapshot_path basePath name)).map (fun e => e.2)

end Storage

/-! ## Request/response records (`src/capture/proxy/records/`)

String-valued fields keep their Rust `String` type; bodies are byte lists.
`timestamp` models the `DateTime<Utc>` of the record as the RFC 3339 string
chrono serializes it to (`Utc::now()` becomes an explicit `now` argument). -/

namespace Records

structure ResponseRecord where
  status : Nat
  headers : List (String × String)
  body : List Nat
  content_type : String
deriving DecidableEq

structure RequestRecord where
  method : String
  url : String
  headers : List (String × String)
  body : Option (List Nat)
  response : ResponseRecord
  timestamp : String
deriving DecidableEq

/-- Embedding of `ResponseRecord::detect_content_type`
(`src/capture/proxy/records/response.rs`).  The extension table of the
external `mime_guess` crate (`mime_guess::from_path(path).first()`) is the
parameter `mimeGuess`, applied to the parsed URL's path; `jsonOk` is the
`serde_json` oracle of `TextDetector::is_likely_json`. -/
def detect_content_type (mimeGuess : String → Option String) (jsonOk : List Nat → Bool)
    (headers : List (String × String)) (body : List Nat) (url : Option String) : String :=
  match headers.lookup "content-type" with
  | some ct => ct
  | none =>
    match headers.lookup "Content-Type" with
    | some ct => ct
    | none =>
      match url with
      | some urlStr =>
        match UrlModel.parse urlStr with
        | some parsed =>
          match mimeGuess parsed.path with
          | some guessed => guessed
          | none => ContentTypeHelper.detect_from_body jsonOk body
        | none => ContentTypeHelper.detect_from_body jsonOk body
      | none => ContentTypeHelper.detect_from_body jsonOk body

/-- Embedding of `ResponseRecord::new`: the `content_type` field is computed
once, by `detect_content_type`, at construction. -/
def ResponseRecord.new (mimeGuess : String → Option String) (jsonOk : List Nat → Bool)
    (status : Nat) (headers : List (String × String)) (body : List Nat)
    (url : Option String) : ResponseRecord :=
  { status := status
    headers := headers
    body := body
    content_type := detect_content_type mimeGuess jsonOk headers body url }

/-- Embedding of `RequestRecord::new` (with `Utc::now()` passed in as `now`). -/
def RequestRecord.new (method url : String) (headers : List (String × String))
    (body : Option (List Nat)) (response : ResponseRecord) (now : String) : RequestRecord :=
  { method := method
    url := url
    headers := headers
    body := body
    response := response
    timestamp := now }

end Records

/-! ## Recording proxy forwarding (`src/capture/proxy/server/`) -/

namespace ProxyServer

/-- Embedding of `is_hop_by_hop_header` (`src/capture/proxy/server/utils.rs`). -/
def is_hop_by_hop_header (name : String) : Bool :=
  name == "connection" || name == "keep-alive" || name == "proxy-authenticate" ||
    name == "proxy-authorization" || name == "te" || name == "trailers" ||
    name == "transfer-encoding" || name == "upgrade"

/-- Headers placed on the outbound origin request by
`forward_request_with_pool`: every client request header whose lowercased
name is not hop-by-hop.  (The additional drop of headers that fail hyper's
wire-format validation is not modelled; it only removes further headers.) -/
def outgoing_request_headers (headers : List (String × String)) : List (String × String) :=
  headers.filter (fun kv => !is_hop_by_hop_header (strToLower kv.1))

/-- Status, headers and materialized body returned by the origin
(the `Ok` payload of `forward_request_with_pool`). -/
structure ForwardResult where
  status : Nat
  headers : List (String × String)
  body : List Nat
deriving DecidableEq

/-- The reply `handle_request` sends back to the client. -/
structure ClientResponse where
  status : Nat
  headers : List (String × String)
  body : List Nat
deriving DecidableEq

/-- Embedding of the success branch of `handle_request`
(`src/capture/proxy/server/handlers/http_handlers.rs`): build the
`ResponseRecord` and `RequestRecord`, append to the recorder (the returned
record), and reply to the client with the origin's status, the origin's
response headers — the loop at the end of the branch inserts every header of
`response_headers` — and the materialized body. -/
def handle_request_success (mimeGuess : String → Option String) (jsonOk : List Nat → Bool)
    (now method targetUrl : String) (reqHeaders : List (String × String))
    (bodyBytes : List Nat) (fr : ForwardResult) :
    Records.RequestRecord × ClientResponse :=
  let responseRecord :=
    Records.ResponseRecord.new mimeGuess jsonOk fr.status fr.headers fr.body (some targetUrl)
  let requestRecord :=
    Records.RequestRecord.new method targetUrl reqHeaders
      (if bodyBytes.isEmpty then none else some bodyBytes) responseRecord now
  (requestRecord, { status := fr.status, headers := fr.headers, body := fr.body })

/-- Model of Rust `str::parse::<u16>`: optional leading `+`, then decimal
digits, value at most 65535. -/
def parse_u16 (s : String) : Option Nat :=
  let cs := match s.data with
    | '+' :: r => r
    | r => r
  match UrlModel.parseDigits cs with
  | some n => if n < 65536 then some n else none
  | none => none

/-- Split a string at the first occurrence of `sep`
(Rust `str::split_once`). -/
def splitOnceChar (sep : Char) (s : String) : Option (String × String) :=
  if s.data.contains sep then
    some ((s.data.takeWhile (fun c => c != sep)).asString,
      ((s.data.dropWhile (fun c => c != sep)).drop 1).asString)
  else none

/-- Host/port split of the CONNECT authority in `handle_connect_mitm`
(`src/capture/proxy/server/handlers/mitm_handlers.rs`):
`host_port.split_once(':')`, the port falling back to 443 when absent or
unparseable. -/
def connect_host_port (hostPort : String) : String × Nat :=
  match splitOnceChar ':' hostPort with
  | some (h, p) => (h, (parse_u16 p).getD 443)
  | none => (hostPort, 443)

/-- The synthetic record `handle_connect_mitm` appends for the CONNECT
request itself: method `CONNECT`, URL `https://{host}:{port}`, response
status 200 with header `Connection: established` and empty body. -/
def connect_record (mimeGuess : String → Option String) (jsonOk : List Nat → Bool)
    (now authority : String) : Records.RequestRecord :=
  let hp := connect_host_port authority
  let url := "https://" ++ hp.1 ++ ":" ++ toString hp.2
  Records.RequestRecord.new "CONNECT" url [] none
    (Records.ResponseRecord.new mimeGuess jsonOk 200
      [("Connection", "established")] [] (some url)) now

/-- URL reconstruction for a decrypted inner request inside the MITM tunnel
(`handle_connect_mitm`): a path already starting with `http` is taken as the
full URL, otherwise `https://{host}{path}` is formed from the tunnel host
(the host alone — `handle_connect_mitm` binds `host` to the part of the
authority before the colon). -/
def reconstruct_inner_url (host pathAndQuery : String) : String :=
  if strStartsWith pathAndQuery "http" then pathAndQuery
  else "https://" ++ host ++ pathAndQuery

/-- An inner HTTP request decrypted from the tunnel, together with the
origin's response to it (forwarding assumed successful). -/
structure InnerRequest where
  method : String
  pathAndQuery : String
  headers : List (String × String)
  body : List Nat
  outcome : ForwardResult
deriving DecidableEq

/-- The sequence of records a CONNECT MITM session appends to the recorder:
first the synthetic CONNECT record, then — in order — one record per inner
request, produced by `handle_request` on the rewritten absolute URL. -/
def mitm_session_records (mimeGuess : String → Option String) (jsonOk : List Nat → Bool)
    (now authority : String) (inners : List InnerRequest) : List Records.RequestRecord :=
  let hp := connect_host_port authority
  connect_record mimeGuess jsonOk now authority ::
    inners.map (fun i =>
      (handle_request_success mimeGuess jsonOk now i.method
        (reconstruct_inner_url hp.1 i.pathAndQuery) i.headers i.body i.outcome).1)

end ProxyServer

/-! ## Replay mock server (`src/serve/handlers/`) -/

namespace Serve

/-- The snapshot consumed by the replay server (`crate::storage::Snapshot`,
string-level view; `created_at` as its RFC 3339 string). -/
structure Snapshot where
  name : String
  url : String
  created_at : String
  requests : List Records.RequestRecord
deriving DecidableEq

/-- Fuel-driven scan for `removeAll` (structural in the fuel so that it
reduces computationally; the fuel is always at least the list length, and
each step consumes at least one character). -/
def removeAllAux (pat : List Char) : Nat → List Char → List Char
  | 0, l => l
  | _, [] => []
  | fuel + 1, c :: rest =>
    if pat ≠ [] ∧ pat.isPrefixOf (c :: rest) then
      removeAllAux pat fuel ((c :: rest).drop pat.length)
    else c :: removeAllAux pat fuel rest

/-- Remove every (non-overlapping, left-to-right) occurrence of `pat`:
Rust `String::replace(pat, "")`. -/
def removeAll (pat l : List Char) : List Char :=
  removeAllAux pat l.length l

/-- Embedding of the `normalize_connect_url` closure in
`find_matching_record` (`src/serve/handlers/request_matcher.rs`):
`url.replace("https://", "")` when the URL starts with `https://`,
`url.replace("http://", "")` when it starts with `http://`, else the URL
unchanged.  Note `String::replace` removes every occurrence, not only the
leading one. -/
def normalize_connect_url (url : String) : String :=
  if strStartsWith url "https://" then (removeAll "https://".data url.data).asString
  else if strStartsWith url "http://" then (removeAll "http://".data url.data).asString
  else url

/-- The per-record CONNECT test of `find_matching_record`: normalized URLs
equal, or else the hosts extracted by `Url::parse("https://" ++ normalized)`
equal. -/
def connect_record_matches (recordUrl queryUrl : String) : Bool :=
  let normalizedRecorded := normalize_connect_url recordUrl
  let normalizedRequest := normalize_connect_url queryUrl
  normalizedRecorded == normalizedRequest ||
    (match UrlModel.parse ("https://" ++ normalizedRecorded),
        UrlModel.parse ("https://" ++ normalizedRequest) with
      | some recordedUrl, some requestUrl => recordedUrl.host == requestUrl.host
      | _, _ => false)

/-- Embedding of `find_matching_record` (`src/serve/handlers/request_matcher.rs`).
CONNECT requests scan the log for the first CONNECT record passing
`connect_record_matches`; other methods parse the query URL (returning no
match if it fails to parse) and run four full scans in order: exact
method+URL; method+host+path+query; method+host+path; method+path. -/
def find_matching_record (snapshot : Snapshot) (method : String) (fullUrl : String) :
    Option Records.RequestRecord :=
  if method == "CONNECT" then
    snapshot.requests.find? (fun r => r.method == "CONNECT" && connect_record_matches r.url fullUrl)
  else
    match UrlModel.parse fullUrl with
    | none => none
    | some requestUrl =>
      let requestHost := requestUrl.host
      let requestPath := requestUrl.path
      let requestQuery := requestUrl.query.getD ""
      match snapshot.requests.find? (fun r => r.method == method && r.url == fullUrl) with
      | some r => some r
      | none =>
        match snapshot.requests.find? (fun r =>
            r.method == method &&
              match UrlModel.parse r.url with
              | some recordedUrl =>
                recordedUrl.host == requestHost && recordedUrl.path == requestPath &&
                  recordedUrl.query.getD "" == requestQuery
              | none => false) with
        | some r => some r
        | none =>
          match snapshot.requests.find? (fun r =>
              r.method == method &&
                match UrlModel.parse r.url with
                | some recordedUrl =>
                  recordedUrl.host == requestHost && recordedUrl.path == requestPath
                | none => false) with
          | some r => some r
          | none =>
            snapshot.requests.find? (fun r =>
              r.method == method &&
                match UrlModel.parse r.url with
                | some recordedUrl => recordedUrl.path == requestPath
                | none => false)

/-- The response synthesized by the replay server. -/
structure BuiltResponse where
  status : Nat
  headers : List (String × String)
  body : List Nat
deriving DecidableEq

/-- Embedding of `create_response_from_record`
(`src/serve/handlers/response_builder.rs`): copy the recorded status; copy
each recorded response header unless its lowercased name is
`content-length` or `transfer-encoding` (always skipped) or `connection`
(skipped, except that a CONNECT record's connection header becomes
`Connection: upgrade`); then always append `content-length` computed from
the actual body, and use the recorded body. -/
def create_response_from_record (record : Records.RequestRecord) : BuiltResponse :=
  let copied := record.response.headers.flatMap (fun kv =>
    let keyLower := strToLower kv.1
    if keyLower == "content-length" || keyLower == "transfer-encoding" then []
    else if keyLower == "connection" then
      if record.method == "CONNECT" then [("Connection", "upgrade")] else []
    else [kv])
  { status := record.response.status
    headers := copied ++ [("content-length", toString record.response.body.length)]
    body := record.response.body }

/-- Specification-worded CONNECT normalization (for comparison with the
code): strip a single leading `https://` or `http://` prefix. -/
def spec_normalize_connect_url (url : String) : String :=
  if strStartsWith url "https://" then (url.data.drop 8).asString
  else if strStartsWith url "http://" then (url.data.drop 7).asString
  else url

/-- Specification-worded per-record CONNECT test: prefix-stripped
normalizations equal, else hosts (parsed under a synthetic `https://`
prefix) equal. -/
def spec_connect_record_matches (recordUrl queryUrl : String) : Bool :=
  let normalizedRecorded := spec_normalize_connect_url recordUrl
  let normalizedRequest := spec_normalize_connect_url queryUrl
  normalizedRecorded == normalizedRequest ||
    (match UrlModel.parse ("https://" ++ normalizedRecorded),
        UrlModel.parse ("https://" ++ normalizedRequest) with
      | some recordedUrl, some requestUrl => recordedUrl.host == requestUrl.host
      | _, _ => false)

/-- Specification-worded CONNECT matcher: first CONNECT record passing
`spec_connect_record_matches`. -/
def spec_connect_find (snapshot : Snapshot) (queryUrl : String) :
    Option Records.RequestRecord :=
  snapshot.requests.find? (fun r =>
    r.method == "CONNECT" && spec_connect_record_matches r.url queryUrl)

/-- Specification-worded matching pass 1: same method and exact URL string
equality. -/
def spec_pass_exact (method fullUrl : String) (r : Records.RequestRecord) : Bool :=
  r.method == method && r.url == fullUrl

/-- Specification-worded pass 2: same method, equal host, path and query
string. -/
def spec_pass_host_path_query (method : String) (q : UrlModel.ParsedUrl)
    (r : Records.RequestRecord) : Bool :=
  r.method == method &&
    match UrlModel.parse r.url with
    | some u => u.host == q.host && u.path == q.path && u.query.getD "" == q.query.getD ""
    | none => false

/-- Specification-worded pass 3: same method, equal host and path, query
ignored. -/
def spec_pass_host_path (method : String) (q : UrlModel.ParsedUrl)
    (r : Records.RequestRecord) : Bool :=
  r.method == method &&
    match UrlModel.parse r.url with
    | some u => u.host == q.host && u.path == q.path
    | none => false

/-- Specification-worded pass 4: same method and equal path, host ignored. -/
def spec_pass_path (method : String) (q : UrlModel.ParsedUrl)
    (r : Records.RequestRecord) : Bool :=
  r.method == method &&
    match UrlModel.parse r.url with
    | some u => u.path == q.path
    | none => false

/-- Specification-worded non-CONNECT matcher: the four passes in order, each
scanning the whole log, first hit wins. -/
def spec_non_connect_match (snapshot : Snapshot) (method fullUrl : String)
    (q : UrlModel.ParsedUrl) : Option Records.RequestRecord :=
  (snapshot.requests.find? (spec_pass_exact method fullUrl)) <|>
    (snapshot.requests.find? (spec_pass_host_path_query method q)) <|>
      (snapshot.requests.find? (spec_pass_host_path method q)) <|>
        (snapshot.requests.find? (spec_pass_path method q))

end Serve

/-- Specification-worded case-insensitive `Content-Type` lookup (the lookup
claim C8 attributes to `detect_content_type`): the first header whose
lowercased name is `content-type`. -/
def spec_header_lookup_ci (headers : List (String × String)) : Option String :=
  (headers.find? (fun kv => strToLower kv.1 == "content-type")).map (fun kv => kv.2)

/-! ## Snapshot codec (`src/storage/serialization.rs`)

Byte-level view of the snapshot and its records, for the serialization
claims.  Every Rust `String` is represented by its UTF-8 byte list; a
`DateTime<Utc>` is represented by the RFC 3339 string chrono serializes it
to and parses it back from (chrono's own round-trip is assumed).  The
MessagePack layer below implements what `rmp_serde::to_vec` /
`rmp_serde::from_slice` produce for these concrete types: structs as
fixed-size arrays of their fields in declaration order, `HashMap` as a map
of its entries in iteration order, `u16` as the smallest unsigned integer
format, `None` as nil, and — through the custom `body_serialization` /
`optional_body_serialization` modules of
`src/capture/proxy/records/serialization.rs` — bodies as base64 strings
(`base64::engine::general_purpose::STANDARD`). -/

namespace Codec

structure ResponseRecord where
  status : Nat
  headers : List (List Nat × List Nat)
  body : List Nat
  content_type : List Nat
deriving DecidableEq

structure RequestRecord where
  method : List Nat
  url : List Nat
  headers : List (List Nat × List Nat)
  body : Option (List Nat)
  response : ResponseRecord
  timestamp : List Nat
deriving DecidableEq

structure Snapshot where
  name : List Nat
  url : List Nat
  created_at : List Nat
  requests : List RequestRecord
deriving DecidableEq

structure SnapshotMetadata where
  name : List Nat
  url : List Nat
  created_at : List Nat
  version : List Nat
deriving DecidableEq

structure SnapshotData where
  metadata : SnapshotMetadata
  requests : List RequestRecord
deriving DecidableEq

/-- The base64 alphabet of the `STANDARD` engine: sextet → ASCII code. -/
def b64Char (s : Nat) : Nat :=
  if s < 26 then 65 + s
  else if s < 52 then 97 + (s - 26)
  else if s < 62 then 48 + (s - 52)
  else if s = 62 then 43
  else 47

/-- Inverse alphabet: ASCII code → sextet (none for non-alphabet bytes,
including the pad `=`). -/
def b64Dec (c : Nat) : Option Nat :=
  if 65 ≤ c ∧ c ≤ 90 then some (c - 65)
  else if 97 ≤ c ∧ c ≤ 122 then some (c - 97 + 26)
  else if 48 ≤ c ∧ c ≤ 57 then some (c - 48 + 52)
  else if c = 43 then some 62
  else if c = 47 then some 63
  else none

/-- Standard base64 encoding with padding
(`general_purpose::STANDARD.encode`), as ASCII bytes. -/
def b64Encode : List Nat → List Nat
  | [] => []
  | [b1] => [b64Char (b1 / 4), b64Char (b1 % 4 * 16), 61, 61]
  | [b1, b2] => [b64Char (b1 / 4), b64Char (b1 % 4 * 16 + b2 / 16), b64Char (b2 % 16 * 4), 61]
  | b1 :: b2 :: b3 :: rest =>
    b64Char (b1 / 4) :: b64Char (b1 % 4 * 16 + b2 / 16) ::
      b64Char (b2 % 16 * 4 + b3 / 64) :: b64Char (b3 % 64) :: b64Encode rest

/-- Standard base64 decoding (`general_purpose::STANDARD.decode`): input in
four-byte groups, pad `=` only closing the final group, non-alphabet bytes
rejected. -/
def b64Decode : List Nat → Option (List Nat)
  | [] => some []
  | c1 :: c2 :: c3 :: c4 :: rest =>
    if rest.isEmpty ∧ c3 = 61 ∧ c4 = 61 then do
      let s1 ← b64Dec c1
      let s2 ← b64Dec c2
      some [s1 * 4 + s2 / 16]
    else if rest.isEmpty ∧ c4 = 61 then do
      let s1 ← b64Dec c1
      let s2 ← b64Dec c2
      let s3 ← b64Dec c3
      some [s1 * 4 + s2 / 16, s2 % 16 * 16 + s3 / 4]
    else do
      let s1 ← b64Dec c1
      let s2 ← b64Dec c2
      let s3 ← b64Dec c3
      let s4 ← b64Dec c4
      let r ← b64Decode rest
      some ((s1 * 4 + s2 / 16) :: (s2 % 16 * 16 + s3 / 4) :: (s3 % 4 * 64 + s4) :: r)
  | _ => none

/-- Big-endian 16-bit length. -/
def be16 (n : Nat) : List Nat :=
  [n / 256 % 256, n % 256]

/-- Big-endian 32-bit length. -/
def be32 (n : Nat) : List Nat :=
  [n / 16777216 % 256, n / 65536 % 256, n / 256 % 256, n % 256]

/-- Big-endian 64-bit value. -/
def be64 (n : Nat) : List Nat :=
  [n / 72057594037927936 % 256, n / 281474976710656 % 256, n / 1099511627776 % 256,
    n / 4294967296 % 256, n / 16777216 % 256, n / 65536 % 256, n / 256 % 256, n % 256]

/-- MessagePack str-format header for a byte length (fixstr / str8 / str16 /
str32, as `rmp` picks the smallest). -/
def strHeader (n : Nat) : List Nat :=
  if n < 32 then [0xa0 + n]
  else if n < 256 then [0xd9, n]
  else if n < 65536 then 0xda :: be16 n
  else 0xdb :: be32 n

/-- MessagePack array header (fixarray / array16 / array32). -/
def arrHeader (n : Nat) : List Nat :=
  if n < 16 then [0x90 + n]
  else if n < 65536 then 0xdc :: be16 n
  else 0xdd :: be32 n

/-- MessagePack map header (fixmap / map16 / map32). -/
def mapHeader (n : Nat) : List Nat :=
  if n < 16 then [0x80 + n]
  else if n < 65536 then 0xde :: be16 n
  else 0xdf :: be32 n

/-- MessagePack unsigned integer, smallest format (positive fixint / uint8 /
uint16 / uint32 / uint64). -/
def encUInt (n : Nat) : List Nat :=
  if n < 128 then [n]
  else if n < 256 then [0xcc, n]
  else if n < 65536 then 0xcd :: be16 n
  else if n < 4294967296 then 0xce :: be32 n
  else 0xcf :: be64 n

/-- MessagePack str: header then raw bytes. -/
def encStr (s : List Nat) : List Nat :=
  strHeader s.length ++ s

/-- A `HashMap<String, String>` as a MessagePack map of str/str pairs. -/
def encHeaders (hs : List (List Nat × List Nat)) : List Nat :=
  mapHeader hs.length ++ hs.flatMap (fun kv => encStr kv.1 ++ encStr kv.2)

/-- `Option<Vec<u8>>` through `optional_body_serialization`: `None` as nil,
`Some` as the base64 string. -/
def encOptBody : Option (List Nat) → List Nat
  | none => [0xc0]
  | some b => encStr (b64Encode b)

/-- `ResponseRecord` as rmp_serde encodes it: fixarray(4) of status, headers,
base64 body string (`body_serialization`), content type string. -/
def encResponse (r : ResponseRecord) : List Nat :=
  arrHeader 4 ++ encUInt r.status ++ encHeaders r.headers ++
    encStr (b64Encode r.body) ++ encStr r.content_type

/-- `RequestRecord` as fixarray(6) of method, url, headers, optional body,
response, timestamp string. -/
def encRequest (r : RequestRecord) : List Nat :=
  arrHeader 6 ++ encStr r.method ++ encStr r.url ++ encHeaders r.headers ++
    encOptBody r.body ++ encResponse r.response ++ encStr r.timestamp

/-- `SnapshotMetadata` as fixarray(4) of name, url, created_at string,
version string. -/
def encMetadata (m : SnapshotMetadata) : List Nat :=
  arrHeader 4 ++ encStr m.name ++ encStr m.url ++ encStr m.created_at ++ encStr m.version

/-- `SnapshotData` as fixarray(2) of metadata and the request array — the
byte string `rmp_serde::to_vec(&snapshot_data)` produces. -/
def encSnapshotData (d : SnapshotData) : List Nat :=
  arrHeader 2 ++ encMetadata d.metadata ++
    (arrHeader d.requests.length ++ d.requests.flatMap encRequest)

/-- Take exactly `n` bytes off the front. -/
def parseBytesExact (n : Nat) (l : List Nat) : Option (List Nat × List Nat) :=
  if n ≤ l.length then some (l.take n, l.drop n) else none

/-- Read a str-format length header. -/
def parseStrLen : List Nat → Option (Nat × List Nat)
  | [] => none
  | b :: rest =>
    if 0xa0 ≤ b ∧ b ≤ 0xbf then some (b - 0xa0, rest)
    else if b = 0xd9 then
      match rest with
      | n :: r => some (n, r)
      | [] => none
    else if b = 0xda then
      match rest with
      | h :: lo :: r => some (h * 256 + lo, r)
      | _ => none
    else if b = 0xdb then
      match rest with
      | a :: b2 :: c :: d :: r => some (((a * 256 + b2) * 256 + c) * 256 + d, r)
      | _ => none
    else none

/-- Read a MessagePack str. -/
def parseStr (l : List Nat) : Option (List Nat × List Nat) := do
  let (n, r) ← parseStrLen l
  parseBytesExact n r

/-- Read an array header. -/
def parseArrLen : List Nat → Option (Nat × List Nat)
  | [] => none
  | b :: rest =>
    if 0x90 ≤ b ∧ b ≤ 0x9f then some (b - 0x90, rest)
    else if b = 0xdc then
      match rest with
      | h :: lo :: r => some (h * 256 + lo, r)
      | _ => none
    else if b = 0xdd then
      match rest with
      | a :: b2 :: c :: d :: r => some (((a * 256 + b2) * 256 + c) * 256 + d, r)
      | _ => none
    else none

/-- Read a map header. -/
def parseMapLen : List Nat → Option (Nat × List Nat)
  | [] => none
  | b :: rest =>
    if 0x80 ≤ b ∧ b ≤ 0x8f then some (b - 0x80, rest)
    else if b = 0xde then
      match rest with
      | h :: lo :: r => some (h * 256 + lo, r)
      | _ => none
    else if b = 0xdf then
      match rest with
      | a :: b2 :: c :: d :: r => some (((a * 256 + b2) * 256 + c) * 256 + d, r)
      | _ => none
    else none

/-- Read an unsigned integer (positive fixint / uint8 / uint16 / uint32 /
uint64). -/
def parseUIntVal : List Nat → Option (Nat × List Nat)
  | [] => none
  | b :: rest =>
    if b < 0x80 then some (b, rest)
    else if b = 0xcc then
      match rest with
      | n :: r => some (n, r)
      | [] => none
    else if b = 0xcd then
      match rest with
      | h :: lo :: r => some (h * 256 + lo, r)
      | _ => none
    else if b = 0xce then
      match rest with
      | a :: b2 :: c :: d :: r => some (((a * 256 + b2) * 256 + c) * 256 + d, r)
      | _ => none
    else if b = 0xcf then
      match rest with
      | a :: b2 :: c :: d :: e :: f :: g :: h2 :: r =>
        some ((((((((a * 256 + b2) * 256 + c) * 256 + d) * 256 + e) * 256 + f) * 256 + g) *
          256 + h2), r)
      | _ => none
    else none

/-- Read `n` str/str map entries. -/
def parsePairs : Nat → List Nat → Option (List (List Nat × List Nat) × List Nat)
  | 0, l => some ([], l)
  | n + 1, l => do
    let (k, r1) ← parseStr l
    let (v, r2) ← parseStr r1
    let (rest, r3) ← parsePairs n r2
    some ((k, v) :: rest, r3)

/-- Read a `HashMap<String, String>`. -/
def parseHeaders (l : List Nat) : Option (List (List Nat × List Nat) × List Nat) := do
  let (n, r) ← parseMapLen l
  parsePairs n r

/-- Read an `Option<Vec<u8>>` (nil, or a base64 string that must decode). -/
def parseOptBody : List Nat → Option (Option (List Nat) × List Nat)
  | [] => none
  | b :: rest =>
    if b = 0xc0 then some (none, rest)
    else do
      let (s, r) ← parseStr (b :: rest)
      let bytes ← b64Decode s
      some (some bytes, r)

/-- Read a `ResponseRecord` (fixed 4-element array). -/
def parseResponse (l : List Nat) : Option (ResponseRecord × List Nat) := do
  let (n, r0) ← parseArrLen l
  if n = 4 then do
    let (status, r1) ← parseUIntVal r0
    let (hs, r2) ← parseHeaders r1
    let (bstr, r3) ← parseStr r2
    let body ← b64Decode bstr
    let (ct, r4) ← parseStr r3
    some (⟨status, hs, body, ct⟩, r4)
  else none

/-- Read a `RequestRecord` (fixed 6-element array). -/
def parseRequest (l : List Nat) : Option (RequestRecord × List Nat) := do
  let (n, r0) ← parseArrLen l
  if n = 6 then do
    let (method, r1) ← parseStr r0
    let (url, r2) ← parseStr r1
    let (hs, r3) ← parseHeaders r2
    let (body, r4) ← parseOptBody r3
    let (response, r5) ← parseResponse r4
    let (timestamp, r6) ← parseStr r5
    some (⟨method, url, hs, body, response, timestamp⟩, r6)
  else none

/-- Read `n` consecutive `RequestRecord`s. -/
def parseRequests : Nat → List Nat → Option (List RequestRecord × List Nat)
  | 0, l => some ([], l)
  | n + 1, l => do
    let (r, r1) ← parseRequest l
    let (rest, r2) ← parseRequests n r1
    some (r :: rest, r2)

/-- Read a `SnapshotMetadata` (fixed 4-element array). -/
def parseMetadata (l : List Nat) : Option (SnapshotMetadata × List Nat) := do
  let (n, r0) ← parseArrLen l
  if n = 4 then do
    let (name, r1) ← parseStr r0
    let (url, r2) ← parseStr r1
    let (created_at, r3) ← parseStr r2
    let (version, r4) ← parseStr r3
    some (⟨name, url, created_at, version⟩, r4)
  else none

/-- Read a `SnapshotData` — the byte string `rmp_serde::from_slice` accepts. -/
def parseSnapshotData (l : List Nat) : Option (SnapshotData × List Nat) := do
  let (n, r0) ← parseArrLen l
  if n = 2 then do
    let (metadata, r1) ← parseMetadata r0
    let (cnt, r2) ← parseArrLen r1
    let (requests, r3) ← parseRequests cnt r2
    some (⟨metadata, requests⟩, r3)
  else none

/-- Model of the `flate2` gzip coder used by `compress_data` /
`decompress_data`: an arbitrary pair of total functions such that
decompression inverts compression and — per RFC 1952 — every gzip member
starts with the magic bytes `1f 8b`. -/
structure GzipModel where
  compress : List Nat → List Nat
  decompress : List Nat → List Nat
  decompress_compress : ∀ data, decompress (compress data) = data
  compress_magic : ∀ data, ∃ rest, compress data = 0x1f :: 0x8b :: rest

/-- A concrete instance of `GzipModel` (prefix the magic, drop it again),
used to evaluate the serializer on concrete snapshots. -/
def gzId : GzipModel where
  compress := fun data => 0x1f :: 0x8b :: data
  decompress := fun data => data.drop 2
  decompress_compress := fun _ => rfl
  compress_magic := fun data => ⟨data, rfl⟩

/-- `COMPRESSION_THRESHOLD` from `src/storage/serialization.rs` (1 MiB). -/
def COMPRESSION_THRESHOLD : Nat := 1024 * 1024

/-- The `env!("CARGO_PKG_VERSION")` stamp.  The crate manifest is not part
of `src/`; the concrete value is irrelevant to every claim (deserialization
discards it), so a fixed placeholder version string is modelled. -/
def CARGO_PKG_VERSION : List Nat := ascii "0.1.0"

namespace SnapshotSerializer

/-- The `SnapshotData` value `serialize` builds from a snapshot before
encoding. -/
def toSnapshotData (s : Snapshot) : SnapshotData :=
  { metadata :=
      { name := s.name, url := s.url, created_at := s.created_at,
        version := CARGO_PKG_VERSION }
    requests := s.requests }

/-- The snapshot `deserialize` rebuilds from a decoded `SnapshotData`. -/
def fromSnapshotData (d : SnapshotData) : Snapshot :=
  { name := d.metadata.name, url := d.metadata.url, created_at := d.metadata.created_at,
    requests := d.requests }

/-- Embedding of `SnapshotSerializer::serialize`: encode to MessagePack and
gzip-wrap the result exactly when it is longer than
`COMPRESSION_THRESHOLD`. -/
def serialize (gz : GzipModel) (s : Snapshot) : List Nat :=
  let msgpackData := encSnapshotData (toSnapshotData s)
  if msgpackData.length > COMPRESSION_THRESHOLD then gz.compress msgpackData
  else msgpackData

/-- Embedding of `SnapshotSerializer::is_compressed`: at least two bytes and
the gzip magic `1f 8b` in front. -/
def is_compressed (data : List Nat) : Bool :=
  decide (data.length ≥ 2) && data[0]? == some 0x1f && data[1]? == some 0x8b

/-- Embedding of `SnapshotSerializer::deserialize`: peel gzip exactly when
`is_compressed`, then decode the MessagePack payload. -/
def deserialize (gz : GzipModel) (data : List Nat) : Option Snapshot :=
  let payload := if is_compressed data then gz.decompress data else data
  (parseSnapshotData payload).map (fun p => fromSnapshotData p.1)

end SnapshotSerializer

/-- Well-formedness carried by the Rust types and the formats: a string's
byte length fits the str32 length field (`rmp` errors on anything longer,
so such data can never be emitted). -/
def strWF (s : List Nat) : Bool :=
  decide (s.length < 4294967296)

/-- A body is a `Vec<u8>` (bytes below 256) short enough that its base64
string fits str32. -/
def bytesWF (b : List Nat) : Bool :=
  b.all (fun x => x < 256) && decide (b.length ≤ 3221225469)

/-- A header map whose entry count fits map32 and whose keys and values fit
str32. -/
def headersWF (hs : List (List Nat × List Nat)) : Bool :=
  decide (hs.length < 4294967296) && hs.all (fun kv => strWF kv.1 && strWF kv.2)

/-- `ResponseRecord` well-formedness: `u16` status, well-formed headers,
body and content type. -/
def ResponseRecord.WF (r : ResponseRecord) : Bool :=
  decide (r.status < 65536) && headersWF r.headers && bytesWF r.body && strWF r.content_type

def RequestRecord.WF (r : RequestRecord) : Bool :=
  strWF r.method && strWF r.url && headersWF r.headers &&
    (match r.body with
      | none => true
      | some b => bytesWF b) &&
    r.response.WF && strWF r.timestamp

def Snapshot.WF (s : Snapshot) : Bool :=
  strWF s.name && strWF s.url && strWF s.created_at &&
    decide (s.requests.length < 4294967296) && s.requests.all RequestRecord.WF

end Codec

end WebMock

namespace WebMock

/-! ## Theorems -/

/-- C10: a body of at least 4 bytes that begins with the RIFF magic
`52 49 46 46` but does not carry ASCII `WEBP` at offsets 8..12 (in particular
any RIFF body shorter than 12 bytes), and that fails the earlier HTML, JSON
and XML tests, is classified by `ContentTypeHelper::detect_from_body` as the
label `image/unknown` — not as an image MIME type and not as
`application/octet-stream`. -/
theorem c10_riff_non_webp_is_image_unknown (jsonOk : List Nat → Bool) (body : List Nat)
    (h4 : 4 ≤ body.length)
    (hriff : body.take 4 = [0x52, 0x49, 0x46, 0x46])
    (hwebp : ¬ (12 ≤ body.length ∧ (body.drop 8).take 4 = ascii "WEBP"))
    (hhtml : TextDetector.is_likely_html body = false)
    (hjson : TextDetector.is_likely_json jsonOk body = false)
    (hxml : TextDetector.is_likely_xml body = false) :
    ContentTypeHelper.detect_from_body jsonOk body = "image/unknown" := by
  have hne : body.isEmpty = false := by
    cases body with
    | nil => simp at h4
    | cons a l => rfl
  have himage : ImageDetector.is_likely_image body = true := by
    unfold ImageDetector.is_likely_image
    rw [if_neg (by omega), hriff]
  have hwebpb : (decide (body.length ≥ 12) && ((body.drop 8).take 4 == ascii "WEBP")) = false := by
    by_cases h12 : 12 ≤ body.length
    · have : (body.drop 8).take 4 ≠ ascii "WEBP" := fun hc => hwebp ⟨h12, hc⟩
      simp [this]
    · simp [h12]
  have htype : ImageDetector.detect_image_type body = "image/unknown" := by
    unfold ImageDetector.detect_image_type
    rw [if_neg (by omega), hriff]
    simpa using hwebpb
  unfold ContentTypeHelper.detect_from_body
  rw [hne, hhtml, hjson, hxml, himage, htype]
  rfl

/-- Witness for C10: the four-byte body `RIFF` (no room for a `WEBP` tag)
satisfies every hypothesis and is classified `image/unknown`. -/
theorem c10_riff_non_webp_is_image_unknown_witness :
    ContentTypeHelper.detect_from_body (fun _ => false) [0x52, 0x49, 0x46, 0x46] = "image/unknown" :=
  c10_riff_non_webp_is_image_unknown (fun _ => false) [0x52, 0x49, 0x46, 0x46]
    (by decide) (by decide) (by decide) (by decide) (by decide) (by decide)

/-- C4 counterexample: the store computes `{root}/snapshots/{name}.msgpack`,
not `{root}/snapshots/{name}.bin` as claimed. -/
theorem c4_extension_counterexample :
    Storage.get_snapshot_path "/home/user/.webmock" "snap" =
      "/home/user/.webmock/snapshots/snap.msgpack" ∧
    Storage.get_snapshot_path "/home/user/.webmock" "snap" ≠
      "/home/user/.webmock/snapshots/snap.bin" := by
  constructor
  · rfl
  · decide

/-- C4 (amended): for every snapshot name `n` the store persists and looks up
the snapshot at `{root}/snapshots/{n}.msgpack` — the fixed extension is
`.msgpack` — and this path is independent of the file's contents (in
particular of whether the stored bytes are gzip-wrapped): writing any byte
string there and reading the snapshot file back returns exactly those
bytes. -/
theorem c4_snapshot_path_msgpack (fs : Storage.Fs) (basePath name : String) (data : List Nat) :
    Storage.get_snapshot_path basePath name =
      basePath ++ "/snapshots/" ++ name ++ ".msgpack" ∧
    Storage.load_snapshot_file (Storage.save_snapshot_file fs basePath name data)
      basePath name = some data := by
  constructor
  · show basePath ++ "/" ++ "snapshots" ++ "/" ++ (name ++ ".msgpack") =
      basePath ++ "/snapshots/" ++ name ++ ".msgpack"
    apply String.ext
    simp [String.data_append]
  · simp [Storage.load_snapshot_file, Storage.save_snapshot_file, List.find?]

/-- C2 counterexample: the reply `handle_request` sends to the client copies
the origin's response headers without hop-by-hop filtering — an origin
response header `connection: keep-alive` (hop-by-hop) is emitted verbatim,
contradicting part (b) of the claim. -/
theorem c2_response_headers_counterexample :
    ProxyServer.is_hop_by_hop_header "connection" = true ∧
    ("connection", "keep-alive") ∈
      (ProxyServer.handle_request_success (fun _ => none) (fun _ => false) "now" "GET"
        "http://origin.example/a" [] []
        ⟨200, [("connection", "keep-alive")], []⟩).2.headers := by
  constructor
  · rfl
  · simp [ProxyServer.handle_request_success]

/-- C2 (amended): (a) no header whose lowercased name is hop-by-hop
(`connection`, `keep-alive`, `proxy-authenticate`, `proxy-authorization`,
`te`, `trailers`, `transfer-encoding`, `upgrade`) appears among the headers
`forward_request_with_pool` places on the outgoing origin request; (b) the
response headers the proxy replies to the client with are the origin's
response headers copied through unfiltered (the `content-length` framing of
the reply is recomputed by the HTTP layer from the materialized body, which
is replied verbatim). -/
theorem c2_hop_by_hop_filtering (headers : List (String × String))
    (mimeGuess : String → Option String) (jsonOk : List Nat → Bool)
    (now method targetUrl : String) (reqHeaders : List (String × String))
    (bodyBytes : List Nat) (fr : ProxyServer.ForwardResult) :
    (∀ kv ∈ ProxyServer.outgoing_request_headers headers,
        ProxyServer.is_hop_by_hop_header (strToLower kv.1) = false) ∧
    (ProxyServer.handle_request_success mimeGuess jsonOk now method targetUrl
        reqHeaders bodyBytes fr).2.headers = fr.headers ∧
    (ProxyServer.handle_request_success mimeGuess jsonOk now method targetUrl
        reqHeaders bodyBytes fr).2.body = fr.body := by
  refine ⟨?_, rfl, rfl⟩
  intro kv hkv
  have h := List.of_mem_filter hkv
  simpa using h

/-- Witness for C2: a concrete client request header list where the
hop-by-hop `Connection` header is dropped from the outgoing request while
`Accept` survives, and a concrete origin response whose headers come back
unchanged. -/
theorem c2_hop_by_hop_filtering_witness :
    (∀ kv ∈ ProxyServer.outgoing_request_headers
        [("Connection", "keep-alive"), ("Accept", "text/html")],
      ProxyServer.is_hop_by_hop_header (strToLower kv.1) = false) ∧
    ProxyServer.outgoing_request_headers
        [("Connection", "keep-alive"), ("Accept", "text/html")] =
      [("Accept", "text/html")] ∧
    (ProxyServer.handle_request_success (fun _ => none) (fun _ => false) "now" "GET"
        "http://origin.example/a" [] []
        ⟨200, [("server", "o"), ("connection", "close")], []⟩).2.headers =
      [("server", "o"), ("connection", "close")] :=
  ⟨(c2_hop_by_hop_filtering [("Connection", "keep-alive"), ("Accept", "text/html")]
      (fun _ => none) (fun _ => false) "now" "GET" "http://origin.example/a" [] []
      ⟨200, [("server", "o"), ("connection", "close")], []⟩).1,
    by decide,
    (c2_hop_by_hop_filtering [("Connection", "keep-alive"), ("Accept", "text/html")]
      (fun _ => none) (fun _ => false) "now" "GET" "http://origin.example/a" [] []
      ⟨200, [("server", "o"), ("connection", "close")], []⟩).2.1⟩

/-- C8 counterexample: the header lookup in `detect_content_type` is not
case-insensitive — it tries only the exact spellings `content-type` and
`Content-Type`.  A header stored as `CONTENT-TYPE` is found by a
case-insensitive lookup but missed by the code, which falls through to body
sniffing and returns `application/octet-stream` instead of the header value
`text/foo`. -/
theorem c8_header_lookup_counterexample :
    spec_header_lookup_ci [("CONTENT-TYPE", "text/foo")] = some "text/foo" ∧
    Records.detect_content_type (fun _ => none) (fun _ => false)
      [("CONTENT-TYPE", "text/foo")] [] none = "application/octet-stream" ∧
    ("application/octet-stream" : String) ≠ "text/foo" := by
  refine ⟨by decide, by decide, by decide⟩

/-- C8 (amended): `detect_content_type` applies the cascade and returns the
first applicable result, with the header stage looking up exactly the keys
`content-type` and then `Content-Type` (not arbitrary casings): (1) such a
header's value verbatim; (2) else the extension-mapped MIME type of the
parsed URL path when the URL is present, parses, and the extension table
knows it; (3) else the body-sniffing result; and a `ResponseRecord`'s
`content_type` field is fixed to this cascade's result at construction. -/
theorem c8_content_type_cascade (mimeGuess : String → Option String) (jsonOk : List Nat → Bool)
    (headers : List (String × String)) (body : List Nat) (url : Option String) :
    (∀ ct, headers.lookup "content-type" = some ct →
      Records.detect_content_type mimeGuess jsonOk headers body url = ct) ∧
    (headers.lookup "content-type" = none →
      ∀ ct, headers.lookup "Content-Type" = some ct →
        Records.detect_content_type mimeGuess jsonOk headers body url = ct) ∧
    (headers.lookup "content-type" = none → headers.lookup "Content-Type" = none →
      ∀ u parsed m, url = some u → UrlModel.parse u = some parsed →
        mimeGuess parsed.path = some m →
          Records.detect_content_type mimeGuess jsonOk headers body url = m) ∧
    (headers.lookup "content-type" = none → headers.lookup "Content-Type" = none →
      url = none →
        Records.detect_content_type mimeGuess jsonOk headers body url =
          ContentTypeHelper.detect_from_body jsonOk body) ∧
    (headers.lookup "content-type" = none → headers.lookup "Content-Type" = none →
      ∀ u, url = some u → UrlModel.parse u = none →
        Records.detect_content_type mimeGuess jsonOk headers body url =
          ContentTypeHelper.detect_from_body jsonOk body) ∧
    (headers.lookup "content-type" = none → headers.lookup "Content-Type" = none →
      ∀ u parsed, url = some u → UrlModel.parse u = some parsed →
        mimeGuess parsed.path = none →
          Records.detect_content_type mimeGuess jsonOk headers body url =
            ContentTypeHelper.detect_from_body jsonOk body) ∧
    (Records.ResponseRecord.new mimeGuess jsonOk 200 headers body url).content_type =
      Records.detect_content_type mimeGuess jsonOk headers body url := by
  refine ⟨?_, ?_, ?_, ?_, ?_, ?_, rfl⟩
  · intro ct h
    simp [Records.detect_content_type, h]
  · intro h1 ct h2
    simp [Records.detect_content_type, h1, h2]
  · intro h1 h2 u parsed m hu hp hm
    simp [Records.detect_content_type, h1, h2, hu, hp, hm]
  · intro h1 h2 hu
    simp [Records.detect_content_type, h1, h2, hu]
  · intro h1 h2 u hu hp
    simp [Records.detect_content_type, h1, h2, hu, hp]
  · intro h1 h2 u parsed hu hp hm
    simp [Records.detect_content_type, h1, h2, hu, hp, hm]

/-- Witness for C8: the cascade applied at concrete inputs — an exactly
spelled `Content-Type` header is returned verbatim, and with no header and
no URL the body sniffing result (here `application/octet-stream` for an
empty body) is returned. -/
theorem c8_content_type_cascade_witness :
    Records.detect_content_type (fun _ => none) (fun _ => false)
      [("Content-Type", "text/html")] [] none = "text/html" ∧
    Records.detect_content_type (fun _ => none) (fun _ => false) [] [] none =
      ContentTypeHelper.detect_from_body (fun _ => false) [] :=
  ⟨(c8_content_type_cascade (fun _ => none) (fun _ => false)
      [("Content-Type", "text/html")] [] none).2.1 (by decide) "text/html" (by decide),
    (c8_content_type_cascade (fun _ => none) (fun _ => false) [] [] none).2.2.2.1
      (by decide) (by decide) rfl⟩

/-- Membership in the headers of the replay server's synthesized response:
either a recorded header whose lowercased name is none of `content-length`,
`transfer-encoding`, `connection`; or `Connection: upgrade` when the record
is a CONNECT entry carrying some connection header; or the appended
`content-length` computed from the body. -/
theorem mem_create_response_headers (record : Records.RequestRecord)
    (kv : String × String) :
    kv ∈ (Serve.create_response_from_record record).headers ↔
      ((∃ kv' ∈ record.response.headers,
          strToLower kv'.1 ≠ "content-length" ∧ strToLower kv'.1 ≠ "transfer-encoding" ∧
            strToLower kv'.1 ≠ "connection" ∧ kv = kv') ∨
        (record.method = "CONNECT" ∧
          (∃ kv' ∈ record.response.headers, strToLower kv'.1 = "connection") ∧
          kv = ("Connection", "upgrade")) ∨
        kv = ("content-length", toString record.response.body.length)) := by
  simp only [Serve.create_response_from_record, List.mem_append, List.mem_flatMap,
    List.mem_singleton]
  constructor
  · rintro (⟨kv', hkv', hin⟩ | h)
    · by_cases h1 : (strToLower kv'.1 == "content-length" ||
          strToLower kv'.1 == "transfer-encoding") = true
      · rw [if_pos h1] at hin
        simp at hin
      · rw [if_neg h1] at hin
        by_cases h2 : (strToLower kv'.1 == "connection") = true
        · rw [if_pos h2] at hin
          by_cases h3 : (record.method == "CONNECT") = true
          · rw [if_pos h3] at hin
            simp only [List.mem_singleton] at hin
            exact Or.inr (Or.inl ⟨by simpa using h3, ⟨kv', hkv', by simpa using h2⟩, hin⟩)
          · rw [if_neg h3] at hin
            simp at hin
        · rw [if_neg h2] at hin
          simp only [List.mem_singleton] at hin
          simp only [Bool.or_eq_true, beq_iff_eq, not_or] at h1
          exact Or.inl ⟨kv', hkv', h1.1, h1.2, by simpa using h2, hin⟩
    · exact Or.inr (Or.inr h)
  · rintro (⟨kv', hkv', h1, h2, h3, rfl⟩ | ⟨hm, ⟨kv', hkv', hc⟩, rfl⟩ | rfl)
    · refine Or.inl ⟨kv, hkv', ?_⟩
      rw [if_neg (by simp [h1, h2]), if_neg (by simp [h3])]
      exact List.mem_singleton.mpr rfl
    · refine Or.inl ⟨kv', hkv', ?_⟩
      rw [if_neg (by rw [hc]; decide), if_pos (by simp [hc]), if_pos (by simp [hm])]
      exact List.mem_singleton.mpr rfl
    · exact Or.inr rfl

/-- C7: the replay server's synthesized response copies the recorded status
and body; every recorded response header is copied except that
`content-length` and `transfer-encoding` are always omitted and `connection`
is omitted unless the record's method is `CONNECT`, in which case
`Connection: upgrade` is emitted instead; and the emitted `content-length`
header equals the emitted body's length in bytes. -/
theorem c7_create_response_from_record (record : Records.RequestRecord) :
    (Serve.create_response_from_record record).status = record.response.status ∧
    (Serve.create_response_from_record record).body = record.response.body ∧
    (∀ kv ∈ record.response.headers,
      strToLower kv.1 ≠ "content-length" → strToLower kv.1 ≠ "transfer-encoding" →
        strToLower kv.1 ≠ "connection" →
          kv ∈ (Serve.create_response_from_record record).headers) ∧
    (∀ kv ∈ (Serve.create_response_from_record record).headers,
      strToLower kv.1 ≠ "transfer-encoding") ∧
    (∀ kv ∈ (Serve.create_response_from_record record).headers,
      strToLower kv.1 = "content-length" →
        kv = ("content-length", toString record.response.body.length)) ∧
    (("content-length", toString record.response.body.length) ∈
      (Serve.create_response_from_record record).headers) ∧
    ((∃ kv ∈ (Serve.create_response_from_record record).headers,
        strToLower kv.1 = "connection") ↔
      (record.method = "CONNECT" ∧
        ∃ kv ∈ record.response.headers, strToLower kv.1 = "connection")) ∧
    (∀ kv ∈ (Serve.create_response_from_record record).headers,
      strToLower kv.1 = "connection" → kv = ("Connection", "upgrade")) := by
  refine ⟨rfl, rfl, ?_, ?_, ?_, ?_, ⟨?_, ?_⟩, ?_⟩
  · intro kv hkv h1 h2 h3
    exact (mem_create_response_headers record kv).mpr (Or.inl ⟨kv, hkv, h1, h2, h3, rfl⟩)
  · intro kv hkv
    rcases (mem_create_response_headers record kv).mp hkv with
      ⟨kv', _, _, h2, _, rfl⟩ | ⟨_, _, rfl⟩ | rfl
    · exact h2
    · decide
    · show strToLower "content-length" ≠ "transfer-encoding"
      decide
  · intro kv hkv hcleq
    rcases (mem_create_response_headers record kv).mp hkv with
      ⟨kv', _, h1, _, _, rfl⟩ | ⟨_, _, rfl⟩ | rfl
    · exact absurd hcleq h1
    · exact absurd hcleq (by decide)
    · rfl
  · exact (mem_create_response_headers record _).mpr (Or.inr (Or.inr rfl))
  · rintro ⟨kv, hkv, hconneq⟩
    rcases (mem_create_response_headers record kv).mp hkv with
      ⟨kv', _, _, _, h3, rfl⟩ | ⟨hm, hex, rfl⟩ | rfl
    · exact absurd hconneq h3
    · exact ⟨hm, hex⟩
    · exact absurd hconneq (show strToLower "content-length" ≠ "connection" by decide)
  · rintro ⟨hm, kv', hkv', hc⟩
    exact ⟨("Connection", "upgrade"),
      (mem_create_response_headers record _).mpr (Or.inr (Or.inl ⟨hm, ⟨kv', hkv', hc⟩, rfl⟩)),
      by decide⟩
  · intro kv hkv hconneq
    rcases (mem_create_response_headers record kv).mp hkv with
      ⟨kv', _, _, _, h3, rfl⟩ | ⟨_, _, rfl⟩ | rfl
    · exact absurd hconneq h3
    · rfl
    · exact absurd hconneq (show strToLower "content-length" ≠ "connection" by decide)

/-- Witness for C7: a record with a custom header, a `Transfer-Encoding`
header and a `connection` header is replayed with the custom header kept,
both others dropped, and `content-length: 2` appended for its 2-byte body. -/
theorem c7_create_response_from_record_witness :
    ("X-Custom", "v") ∈
      (Serve.create_response_from_record
        ⟨"GET", "https://x/", [], none,
          ⟨200, [("X-Custom", "v"), ("Transfer-Encoding", "chunked"),
            ("connection", "keep-alive")], [104, 105], "text/plain"⟩, "t"⟩).headers ∧
    (Serve.create_response_from_record
        ⟨"GET", "https://x/", [], none,
          ⟨200, [("X-Custom", "v"), ("Transfer-Encoding", "chunked"),
            ("connection", "keep-alive")], [104, 105], "text/plain"⟩, "t"⟩).headers =
      [("X-Custom", "v"), ("content-length", "2")] :=
  ⟨(c7_create_response_from_record
      ⟨"GET", "https://x/", [], none,
        ⟨200, [("X-Custom", "v"), ("Transfer-Encoding", "chunked"),
          ("connection", "keep-alive")], [104, 105], "text/plain"⟩, "t"⟩).2.2.1
      ("X-Custom", "v") (by decide) (by decide) (by decide) (by decide),
    by decide⟩

/-- C9 counterexample: for the tunnel `example.com:8443`, an inner
`GET /b` is recorded with URL `https://example.com/b` — the tunnel port is
dropped — not `https://example.com:8443/b` as the claim states. -/
theorem c9_inner_url_counterexample :
    (ProxyServer.mitm_session_records (fun _ => none) (fun _ => false) "now"
        "example.com:8443" [⟨"GET", "/b", [], [], ⟨200, [], []⟩⟩]).map
      (fun r => (r.method, r.url, r.response.status)) =
      [("CONNECT", "https://example.com:8443", 200),
        ("GET", "https://example.com/b", 200)] ∧
    ("https://example.com/b" : String) ≠ "https://example.com:8443/b" := by
  constructor
  · rfl
  · decide

/-- C9 (amended): every CONNECT handled by the MITM recorder appends exactly
one synthetic entry, first, with method `CONNECT`, URL
`https://{host}:{port}` (hence starting `https://`) and response status 200;
each inner request follows in order, recorded with the absolute URL
`https://{tunnel-host}{path}` — the host without the tunnel port. -/
theorem c9_mitm_session_records (mimeGuess : String → Option String)
    (jsonOk : List Nat → Bool) (now authority : String)
    (inners : List ProxyServer.InnerRequest)
    (hpaths : ∀ i ∈ inners, strStartsWith i.pathAndQuery "http" = false) :
    ∃ connectRec restRecs,
      ProxyServer.mitm_session_records mimeGuess jsonOk now authority inners =
        connectRec :: restRecs ∧
      connectRec.method = "CONNECT" ∧
      connectRec.url = "https://" ++ (ProxyServer.connect_host_port authority).1 ++ ":" ++
        toString (ProxyServer.connect_host_port authority).2 ∧
      (∃ rest, connectRec.url = "https://" ++ rest) ∧
      connectRec.response.status = 200 ∧
      restRecs.length = inners.length ∧
      ∀ k, (hk : k < inners.length) → ∃ rec, restRecs[k]? = some rec ∧
        rec.method = inners[k].method ∧
        rec.url = "https://" ++ (ProxyServer.connect_host_port authority).1 ++
          inners[k].pathAndQuery ∧
        rec.response.status = inners[k].outcome.status := by
  refine ⟨_, _, rfl, rfl, rfl, ?_, rfl, by simp [ProxyServer.mitm_session_records], ?_⟩
  · refine ⟨(ProxyServer.connect_host_port authority).1 ++ ":" ++
      toString (ProxyServer.connect_host_port authority).2, ?_⟩
    apply String.ext
    simp [ProxyServer.connect_record, Records.RequestRecord.new]
  · intro k hk
    rw [List.getElem?_map, List.getElem?_eq_getElem hk]
    refine ⟨_, rfl, rfl, ?_, rfl⟩
    show ProxyServer.reconstruct_inner_url _ _ = _
    rw [ProxyServer.reconstruct_inner_url,
      hpaths inners[k] (List.getElem_mem hk), if_neg (by simp)]

/-- Witness for C9: the session of the counterexample input, through the
amended theorem. -/
theorem c9_mitm_session_records_witness :
    ∃ connectRec restRecs,
      ProxyServer.mitm_session_records (fun _ => none) (fun _ => false) "now"
          "example.com:8443" [⟨"GET", "/b", [], [], ⟨200, [], []⟩⟩] =
        connectRec :: restRecs ∧
      connectRec.method = "CONNECT" ∧
      connectRec.url = "https://" ++
        (ProxyServer.connect_host_port "example.com:8443").1 ++ ":" ++
        toString (ProxyServer.connect_host_port "example.com:8443").2 ∧
      (∃ rest, connectRec.url = "https://" ++ rest) ∧
      connectRec.response.status = 200 ∧
      restRecs.length = 1 ∧
      ∀ k, (hk : k < 1) → ∃ rec, restRecs[k]? = some rec ∧
        rec.method = ([(⟨"GET", "/b", [], [], ⟨200, [], []⟩⟩ :
            ProxyServer.InnerRequest)])[k].method ∧
        rec.url = "https://" ++ (ProxyServer.connect_host_port "example.com:8443").1 ++
          ([(⟨"GET", "/b", [], [], ⟨200, [], []⟩⟩ : ProxyServer.InnerRequest)])[k].pathAndQuery ∧
        rec.response.status =
          ([(⟨"GET", "/b", [], [], ⟨200, [], []⟩⟩ : ProxyServer.InnerRequest)])[k].outcome.status :=
  c9_mitm_session_records (fun _ => none) (fun _ => false) "now" "example.com:8443"
    [⟨"GET", "/b", [], [], ⟨200, [], []⟩⟩] (by decide)

/-- C5: for a parseable (absolute) query URL and a non-CONNECT method, the
matcher behaves exactly as the four-pass cascade of the claim — exact
method+URL, then method+host+path+query, then method+host+path, then
method+path, each pass scanning the whole log in order, first hit winning —
and it returns no match precisely when every record fails all four passes. -/
theorem c5_non_connect_cascade (snapshot : Serve.Snapshot) (method fullUrl : String)
    (q : UrlModel.ParsedUrl) (hm : method ≠ "CONNECT")
    (hq : UrlModel.parse fullUrl = some q) :
    Serve.find_matching_record snapshot method fullUrl =
      Serve.spec_non_connect_match snapshot method fullUrl q ∧
    (Serve.find_matching_record snapshot method fullUrl = none ↔
      ∀ r ∈ snapshot.requests,
        Serve.spec_pass_exact method fullUrl r = false ∧
        Serve.spec_pass_host_path_query method q r = false ∧
        Serve.spec_pass_host_path method q r = false ∧
        Serve.spec_pass_path method q r = false) := by
  have main : Serve.find_matching_record snapshot method fullUrl =
      Serve.spec_non_connect_match snapshot method fullUrl q := by
    rw [Serve.find_matching_record, if_neg (by simp [hm]), hq,
      Serve.spec_non_connect_match]
    delta Serve.spec_pass_exact Serve.spec_pass_host_path_query Serve.spec_pass_host_path
      Serve.spec_pass_path
    dsimp only
    cases snapshot.requests.find? (fun r => r.method == method && r.url == fullUrl) with
    | some r => rfl
    | none =>
      rw [Option.none_orElse]
      cases snapshot.requests.find? (fun r =>
          r.method == method &&
            match UrlModel.parse r.url with
            | some u => u.host == q.host && u.path == q.path && u.query.getD "" == q.query.getD ""
            | none => false) with
      | some r => rfl
      | none =>
        rw [Option.none_orElse]
        cases snapshot.requests.find? (fun r =>
            r.method == method &&
              match UrlModel.parse r.url with
              | some u => u.host == q.host && u.path == q.path
              | none => false) with
        | some r => rfl
        | none => rw [Option.none_orElse]
  refine ⟨main, ?_⟩
  rw [main, Serve.spec_non_connect_match, Option.orElse_eq_none, Option.orElse_eq_none,
    Option.orElse_eq_none]
  simp only [List.find?_eq_none, Bool.not_eq_true]
  constructor
  · rintro ⟨h1, h2, h3, h4⟩ r hr
    exact ⟨h1 r hr, h2 r hr, h3 r hr, h4 r hr⟩
  · intro h
    exact ⟨fun r hr => (h r hr).1, fun r hr => (h r hr).2.1,
      fun r hr => (h r hr).2.2.1, fun r hr => (h r hr).2.2.2⟩

/-- Witness for C5: the claim's own example — a snapshot holding a recorded
`GET https://api.example.com/users` is matched by an incoming
`GET http://localhost:8080/users` via the path-only fallback (passes 1–3
fail: the URL strings differ and the hosts differ). -/
theorem c5_non_connect_cascade_witness :
    ("GET" : String) ≠ "CONNECT" ∧
    UrlModel.parse "http://localhost:8080/users" =
      some ⟨"http", "localhost", some 8080, "/users", none⟩ ∧
    Serve.find_matching_record
        ⟨"s", "u", "t", [⟨"GET", "https://api.example.com/users", [], none,
          ⟨200, [], [], "application/json"⟩, "t"⟩]⟩
        "GET" "http://localhost:8080/users" =
      Serve.spec_non_connect_match
        ⟨"s", "u", "t", [⟨"GET", "https://api.example.com/users", [], none,
          ⟨200, [], [], "application/json"⟩, "t"⟩]⟩
        "GET" "http://localhost:8080/users" ⟨"http", "localhost", some 8080, "/users", none⟩ ∧
    Serve.find_matching_record
        ⟨"s", "u", "t", [⟨"GET", "https://api.example.com/users", [], none,
          ⟨200, [], [], "application/json"⟩, "t"⟩]⟩
        "GET" "http://localhost:8080/users" =
      some ⟨"GET", "https://api.example.com/users", [], none,
        ⟨200, [], [], "application/json"⟩, "t"⟩ ∧
    Serve.spec_pass_exact "GET" "http://localhost:8080/users"
        ⟨"GET", "https://api.example.com/users", [], none,
          ⟨200, [], [], "application/json"⟩, "t"⟩ = false ∧
    Serve.spec_pass_host_path "GET" ⟨"http", "localhost", some 8080, "/users", none⟩
        ⟨"GET", "https://api.example.com/users", [], none,
          ⟨200, [], [], "application/json"⟩, "t"⟩ = false ∧
    Serve.spec_pass_path "GET" ⟨"http", "localhost", some 8080, "/users", none⟩
        ⟨"GET", "https://api.example.com/users", [], none,
          ⟨200, [], [], "application/json"⟩, "t"⟩ = true :=
  ⟨by decide, by decide,
    (c5_non_connect_cascade
      ⟨"s", "u", "t", [⟨"GET", "https://api.example.com/users", [], none,
        ⟨200, [], [], "application/json"⟩, "t"⟩]⟩
      "GET" "http://localhost:8080/users" ⟨"http", "localhost", some 8080, "/users", none⟩
      (by decide) (by decide)).1,
    by decide, by decide, by decide, by decide⟩

/-- C6 counterexample: the code normalizes with `String::replace`, which
removes every occurrence of the scheme string, not only a leading prefix.
For the recorded CONNECT URL `https://xhttps://` and the query URL `x`, the
code's normalization collapses the record to `x` and reports a match, while
the claim's prefix-stripping normalization leaves `xhttps://`, whose parsed
host `xhttps` differs from `x` — so the matcher described by the claim finds
no match. -/
theorem c6_connect_counterexample :
    Serve.find_matching_record
        ⟨"s", "u", "t", [⟨"CONNECT", "https://xhttps://", [], none,
          ⟨200, [], [], "ct"⟩, "t"⟩]⟩ "CONNECT" "x" =
      some ⟨"CONNECT", "https://xhttps://", [], none, ⟨200, [], [], "ct"⟩, "t"⟩ ∧
    Serve.spec_connect_find
        ⟨"s", "u", "t", [⟨"CONNECT", "https://xhttps://", [], none,
          ⟨200, [], [], "ct"⟩, "t"⟩]⟩ "x" = none := by
  constructor
  · decide
  · decide

/-- C6 (amended): the matcher answers a CONNECT query with the first recorded
CONNECT entry for which either the two URLs agree after removing every
occurrence of the matched leading scheme string (`String::replace` of
`https://` resp. `http://` by the empty string), or the hosts obtained by
parsing the normalized URLs under a synthetic `https://` prefix agree; in
particular the query URLs `example.com:443` and `https://example.com:443`
normalize identically and hence match exactly the same recorded entry. -/
theorem c6_connect_matching (snapshot : Serve.Snapshot) (queryUrl : String) :
    (Serve.find_matching_record snapshot "CONNECT" queryUrl =
      snapshot.requests.find? (fun r =>
        r.method == "CONNECT" &&
          (Serve.normalize_connect_url r.url == Serve.normalize_connect_url queryUrl ||
            (match UrlModel.parse ("https://" ++ Serve.normalize_connect_url r.url),
                UrlModel.parse ("https://" ++ Serve.normalize_connect_url queryUrl) with
              | some recordedUrl, some requestUrl => recordedUrl.host == requestUrl.host
              | _, _ => false)))) ∧
    Serve.find_matching_record snapshot "CONNECT" "example.com:443" =
      Serve.find_matching_record snapshot "CONNECT" "https://example.com:443" := by
  constructor
  · rw [Serve.find_matching_record, if_pos (by decide)]
    delta Serve.connect_record_matches
    rfl
  · have h1 : Serve.normalize_connect_url "example.com:443" = "example.com:443" := by decide
    have h2 : Serve.normalize_connect_url "https://example.com:443" = "example.com:443" := by
      decide
    rw [Serve.find_matching_record, Serve.find_matching_record,
      if_pos (by decide), if_pos (by decide)]
    delta Serve.connect_record_matches
    simp only [h1, h2]

namespace Codec

/-- The inverse base64 table inverts the alphabet (checked for each of the
64 sextets). -/
theorem b64Dec_b64Char_fin : ∀ s : Fin 64, b64Dec (b64Char s.val) = some s.val := by
  decide

theorem b64Dec_b64Char (s : Nat) (h : s < 64) : b64Dec (b64Char s) = some s :=
  b64Dec_b64Char_fin ⟨s, h⟩

/-- The alphabet never produces the pad byte `=`. -/
theorem b64Char_ne_61 (s : Nat) : b64Char s ≠ 61 := by
  unfold b64Char
  split_ifs <;> omega

/-- Base64 round-trip: decoding an encoded byte buffer returns it exactly. -/
theorem b64Decode_b64Encode (l : List Nat) (h : ∀ b ∈ l, b < 256) :
    b64Decode (b64Encode l) = some l := by
  induction l using b64Encode.induct with
  | case1 => rfl
  | case2 b1 =>
    have hb1 : b1 < 256 := h b1 (by simp)
    show b64Decode [b64Char (b1 / 4), b64Char (b1 % 4 * 16), 61, 61] = some [b1]
    rw [b64Decode, if_pos (by simp)]
    rw [b64Dec_b64Char _ (by omega), b64Dec_b64Char _ (by omega)]
    show some [b1 / 4 * 4 + b1 % 4 * 16 / 16] = some [b1]
    have harith : b1 / 4 * 4 + b1 % 4 * 16 / 16 = b1 := by omega
    rw [harith]
  | case3 b1 b2 =>
    have hb1 : b1 < 256 := h b1 (by simp)
    have hb2 : b2 < 256 := h b2 (by simp)
    show b64Decode [b64Char (b1 / 4), b64Char (b1 % 4 * 16 + b2 / 16),
      b64Char (b2 % 16 * 4), 61] = some [b1, b2]
    rw [b64Decode, if_neg (by simp [b64Char_ne_61]), if_pos (by simp)]
    rw [b64Dec_b64Char _ (by omega), b64Dec_b64Char _ (by omega),
      b64Dec_b64Char _ (by omega)]
    show some [b1 / 4 * 4 + (b1 % 4 * 16 + b2 / 16) / 16,
      (b1 % 4 * 16 + b2 / 16) % 16 * 16 + b2 % 16 * 4 / 4] = some [b1, b2]
    have ha1 : b1 / 4 * 4 + (b1 % 4 * 16 + b2 / 16) / 16 = b1 := by omega
    have ha2 : (b1 % 4 * 16 + b2 / 16) % 16 * 16 + b2 % 16 * 4 / 4 = b2 := by omega
    rw [ha1, ha2]
  | case4 b1 b2 b3 rest ih =>
    have hb1 : b1 < 256 := h b1 (by simp)
    have hb2 : b2 < 256 := h b2 (by simp)
    have hb3 : b3 < 256 := h b3 (by simp)
    have hrest : ∀ b ∈ rest, b < 256 := fun b hb => h b (by simp [hb])
    show b64Decode (b64Char (b1 / 4) :: b64Char (b1 % 4 * 16 + b2 / 16) ::
      b64Char (b2 % 16 * 4 + b3 / 64) :: b64Char (b3 % 64) :: b64Encode rest) =
      some (b1 :: b2 :: b3 :: rest)
    rw [b64Decode, if_neg (by simp [b64Char_ne_61]), if_neg (by simp [b64Char_ne_61])]
    rw [b64Dec_b64Char _ (by omega), b64Dec_b64Char _ (by omega),
      b64Dec_b64Char _ (by omega), b64Dec_b64Char _ (by omega), ih hrest]
    show some ((b1 / 4 * 4 + (b1 % 4 * 16 + b2 / 16) / 16) ::
      ((b1 % 4 * 16 + b2 / 16) % 16 * 16 + (b2 % 16 * 4 + b3 / 64) / 4) ::
      ((b2 % 16 * 4 + b3 / 64) % 4 * 64 + b3 % 64) :: rest) = some (b1 :: b2 :: b3 :: rest)
    have ha1 : b1 / 4 * 4 + (b1 % 4 * 16 + b2 / 16) / 16 = b1 := by omega
    have ha2 : (b1 % 4 * 16 + b2 / 16) % 16 * 16 + (b2 % 16 * 4 + b3 / 64) / 4 = b2 := by
      omega
    have ha3 : (b2 % 16 * 4 + b3 / 64) % 4 * 64 + b3 % 64 = b3 := by omega
    rw [ha1, ha2, ha3]

/-- Reading an exact byte count off an encoded buffer splits it back. -/
theorem parseBytesExact_append (s r : List Nat) :
    parseBytesExact s.length (s ++ r) = some (s, r) := by
  unfold parseBytesExact
  rw [if_pos (by simp), List.take_left, List.drop_left]

/-- The str header written for a length below the str32 limit reads back as
that length (a longer byte string cannot be emitted: `rmp` errors on it). -/
theorem parseStrLen_strHeader (n : Nat) (hn : n < 4294967296) (r : List Nat) :
    parseStrLen (strHeader n ++ r) = some (n, r) := by
  unfold strHeader
  split_ifs with h1 h2 h3
  · show parseStrLen ((0xa0 + n) :: r) = some (n, r)
    rw [parseStrLen.eq_def]
    dsimp only
    rw [if_pos (by omega)]
    simp
  · show parseStrLen (0xd9 :: n :: r) = some (n, r)
    rw [parseStrLen, if_neg (by omega), if_pos rfl]
  · show parseStrLen (0xda :: n / 256 % 256 :: n % 256 :: r) = some (n, r)
    rw [parseStrLen, if_neg (by omega), if_neg (by omega), if_pos rfl]
    show some (n / 256 % 256 * 256 + n % 256, r) = some (n, r)
    have harith : n / 256 % 256 * 256 + n % 256 = n := by omega
    rw [harith]
  · show parseStrLen (0xdb :: n / 16777216 % 256 :: n / 65536 % 256 :: n / 256 % 256 ::
      n % 256 :: r) = some (n, r)
    rw [parseStrLen, if_neg (by omega), if_neg (by omega), if_neg (by omega), if_pos rfl]
    show some (((n / 16777216 % 256 * 256 + n / 65536 % 256) * 256 + n / 256 % 256) * 256 +
      n % 256, r) = some (n, r)
    have harith : ((n / 16777216 % 256 * 256 + n / 65536 % 256) * 256 + n / 256 % 256) * 256 +
        n % 256 = n := by omega
    rw [harith]

/-- MessagePack str round-trip. -/
theorem parseStr_encStr (s : List Nat) (hs : s.length < 4294967296) (r : List Nat) :
    parseStr (encStr s ++ r) = some (s, r) := by
  unfold parseStr encStr
  rw [List.append_assoc, parseStrLen_strHeader s.length hs]
  simpa using parseBytesExact_append s r

/-- The array header written for a count below the array32 limit reads back
as that count. -/
theorem parseArrLen_arrHeader (n : Nat) (hn : n < 4294967296) (r : List Nat) :
    parseArrLen (arrHeader n ++ r) = some (n, r) := by
  unfold arrHeader
  split_ifs with h1 h2
  · show parseArrLen ((0x90 + n) :: r) = some (n, r)
    rw [parseArrLen.eq_def]
    dsimp only
    rw [if_pos (by omega)]
    simp
  · show parseArrLen (0xdc :: n / 256 % 256 :: n % 256 :: r) = some (n, r)
    rw [parseArrLen, if_neg (by omega), if_pos rfl]
    show some (n / 256 % 256 * 256 + n % 256, r) = some (n, r)
    have harith : n / 256 % 256 * 256 + n % 256 = n := by omega
    rw [harith]
  · show parseArrLen (0xdd :: n / 16777216 % 256 :: n / 65536 % 256 :: n / 256 % 256 ::
      n % 256 :: r) = some (n, r)
    rw [parseArrLen, if_neg (by omega), if_neg (by omega), if_pos rfl]
    show some (((n / 16777216 % 256 * 256 + n / 65536 % 256) * 256 + n / 256 % 256) * 256 +
      n % 256, r) = some (n, r)
    have harith : ((n / 16777216 % 256 * 256 + n / 65536 % 256) * 256 + n / 256 % 256) * 256 +
        n % 256 = n := by omega
    rw [harith]

/-- The map header written for a count below the map32 limit reads back as
that count. -/
theorem parseMapLen_mapHeader (n : Nat) (hn : n < 4294967296) (r : List Nat) :
    parseMapLen (mapHeader n ++ r) = some (n, r) := by
  unfold mapHeader
  split_ifs with h1 h2
  · show parseMapLen ((0x80 + n) :: r) = some (n, r)
    rw [parseMapLen.eq_def]
    dsimp only
    rw [if_pos (by omega)]
    simp
  · show parseMapLen (0xde :: n / 256 % 256 :: n % 256 :: r) = some (n, r)
    rw [parseMapLen, if_neg (by omega), if_pos rfl]
    show some (n / 256 % 256 * 256 + n % 256, r) = some (n, r)
    have harith : n / 256 % 256 * 256 + n % 256 = n := by omega
    rw [harith]
  · show parseMapLen (0xdf :: n / 16777216 % 256 :: n / 65536 % 256 :: n / 256 % 256 ::
      n % 256 :: r) = some (n, r)
    rw [parseMapLen, if_neg (by omega), if_neg (by omega), if_pos rfl]
    show some (((n / 16777216 % 256 * 256 + n / 65536 % 256) * 256 + n / 256 % 256) * 256 +
      n % 256, r) = some (n, r)
    have harith : ((n / 16777216 % 256 * 256 + n / 65536 % 256) * 256 + n / 256 % 256) * 256 +
        n % 256 = n := by omega
    rw [harith]

/-- The smallest-format unsigned integer encoding reads back exactly (any
value fits: a Rust integer is at most 64 bits wide). -/
theorem parseUIntVal_encUInt (n : Nat) (hn : n < 18446744073709551616) (r : List Nat) :
    parseUIntVal (encUInt n ++ r) = some (n, r) := by
  unfold encUInt
  split_ifs with h1 h2 h3 h4
  · show parseUIntVal (n :: r) = some (n, r)
    rw [parseUIntVal.eq_def]
    dsimp only
    rw [if_pos (by omega)]
  · show parseUIntVal (0xcc :: n :: r) = some (n, r)
    rw [parseUIntVal, if_neg (by omega), if_pos rfl]
  · show parseUIntVal (0xcd :: n / 256 % 256 :: n % 256 :: r) = some (n, r)
    rw [parseUIntVal, if_neg (by omega), if_neg (by omega), if_pos rfl]
    show some (n / 256 % 256 * 256 + n % 256, r) = some (n, r)
    have harith : n / 256 % 256 * 256 + n % 256 = n := by omega
    rw [harith]
  · show parseUIntVal (0xce :: n / 16777216 % 256 :: n / 65536 % 256 :: n / 256 % 256 ::
      n % 256 :: r) = some (n, r)
    rw [parseUIntVal, if_neg (by omega), if_neg (by omega), if_neg (by omega), if_pos rfl]
    show some (((n / 16777216 % 256 * 256 + n / 65536 % 256) * 256 + n / 256 % 256) * 256 +
      n % 256, r) = some (n, r)
    have harith : ((n / 16777216 % 256 * 256 + n / 65536 % 256) * 256 + n / 256 % 256) * 256 +
        n % 256 = n := by omega
    rw [harith]
  · show parseUIntVal (0xcf :: n / 72057594037927936 % 256 :: n / 281474976710656 % 256 ::
      n / 1099511627776 % 256 :: n / 4294967296 % 256 :: n / 16777216 % 256 ::
      n / 65536 % 256 :: n / 256 % 256 :: n % 256 :: r) = some (n, r)
    rw [parseUIntVal, if_neg (by omega), if_neg (by omega), if_neg (by omega),
      if_neg (by omega), if_pos rfl]
    show some (((((((n / 72057594037927936 % 256 * 256 + n / 281474976710656 % 256) * 256 +
      n / 1099511627776 % 256) * 256 + n / 4294967296 % 256) * 256 + n / 16777216 % 256) *
      256 + n / 65536 % 256) * 256 + n / 256 % 256) * 256 + n % 256, r) = some (n, r)
    have harith : ((((((n / 72057594037927936 % 256 * 256 + n / 281474976710656 % 256) * 256 +
        n / 1099511627776 % 256) * 256 + n / 4294967296 % 256) * 256 + n / 16777216 % 256) *
        256 + n / 65536 % 256) * 256 + n / 256 % 256) * 256 + n % 256 = n := by omega
    rw [harith]

/-- Reading back the encoded map entries. -/
theorem parsePairs_enc (hs : List (List Nat × List Nat))
    (h : ∀ kv ∈ hs, kv.1.length < 4294967296 ∧ kv.2.length < 4294967296) (r : List Nat) :
    parsePairs hs.length (hs.flatMap (fun kv => encStr kv.1 ++ encStr kv.2) ++ r) =
      some (hs, r) := by
  induction hs generalizing r with
  | nil => rfl
  | cons kv t ih =>
    have hkv := h kv (by simp)
    simp only [List.flatMap_cons, List.length_cons, List.append_assoc]
    unfold parsePairs
    rw [parseStr_encStr kv.1 hkv.1]
    simp only [Option.bind_eq_bind, Option.some_bind]
    rw [parseStr_encStr kv.2 hkv.2]
    simp only [Option.some_bind]
    rw [ih (fun kv2 hkv2 => h kv2 (by simp [hkv2])) r]
    simp only [Option.some_bind]

/-- `HashMap<String, String>` round-trip. -/
theorem parseHeaders_encHeaders (hs : List (List Nat × List Nat))
    (hwf : headersWF hs = true) (r : List Nat) :
    parseHeaders (encHeaders hs ++ r) = some (hs, r) := by
  simp only [headersWF, strWF, Bool.and_eq_true, List.all_eq_true, decide_eq_true_eq] at hwf
  unfold parseHeaders encHeaders
  rw [List.append_assoc, parseMapLen_mapHeader hs.length hwf.1]
  simp only [Option.bind_eq_bind, Option.some_bind]
  exact parsePairs_enc hs (fun kv hkv => hwf.2 kv hkv) r

/-- Length of a base64 encoding: four output bytes per three input bytes,
rounded up. -/
theorem b64Encode_length (l : List Nat) : (b64Encode l).length = 4 * ((l.length + 2) / 3) := by
  induction l using b64Encode.induct with
  | case1 => rfl
  | case2 b1 => simp [b64Encode]
  | case3 b1 b2 => simp [b64Encode]
  | case4 b1 b2 b3 rest ih =>
    show (b64Encode (b1 :: b2 :: b3 :: rest)).length = _
    rw [b64Encode]
    simp only [List.length_cons, ih]
    omega

/-- The first byte of an encoded str is never the nil marker `c0`. -/
theorem encStr_head_ne_c0 (s r : List Nat) :
    ∃ b t, encStr s ++ r = b :: t ∧ b ≠ 0xc0 := by
  unfold encStr strHeader
  split_ifs with h1 h2 h3
  · exact ⟨0xa0 + s.length, s ++ r, rfl, by omega⟩
  · exact ⟨0xd9, s.length :: (s ++ r), rfl, by omega⟩
  · exact ⟨0xda, (s.length / 256 % 256 :: s.length % 256 :: []) ++ (s ++ r), rfl, by omega⟩
  · exact ⟨0xdb, (s.length / 16777216 % 256 :: s.length / 65536 % 256 ::
      s.length / 256 % 256 :: s.length % 256 :: []) ++ (s ++ r), rfl, by omega⟩

/-- `Option<Vec<u8>>` round-trip through `optional_body_serialization`. -/
theorem parseOptBody_encOptBody (b : Option (List Nat))
    (hwf : (match b with
      | none => true
      | some bytes => bytesWF bytes) = true) (r : List Nat) :
    parseOptBody (encOptBody b ++ r) = some (b, r) := by
  cases b with
  | none =>
    show parseOptBody (0xc0 :: r) = some (none, r)
    rw [parseOptBody, if_pos rfl]
  | some bytes =>
    simp only [bytesWF, Bool.and_eq_true, List.all_eq_true, decide_eq_true_eq] at hwf
    have hlen : (b64Encode bytes).length < 4294967296 := by
      rw [b64Encode_length]
      omega
    show parseOptBody (encStr (b64Encode bytes) ++ r) = some (some bytes, r)
    obtain ⟨hd, t, heq, hne⟩ := encStr_head_ne_c0 (b64Encode bytes) r
    rw [heq, parseOptBody, if_neg hne, ← heq]
    rw [parseStr_encStr (b64Encode bytes) hlen]
    simp only [Option.bind_eq_bind, Option.some_bind]
    rw [b64Decode_b64Encode bytes (fun x hx => hwf.1 x hx)]
    simp only [Option.some_bind]

/-- `ResponseRecord` round-trip. -/
theorem parseResponse_encResponse (rec : ResponseRecord) (hwf : rec.WF = true)
    (r : List Nat) : parseResponse (encResponse rec ++ r) = some (rec, r) := by
  simp only [ResponseRecord.WF, Bool.and_eq_true, decide_eq_true_eq] at hwf
  obtain ⟨⟨⟨hstatus, hheaders⟩, hbody⟩, hct⟩ := hwf
  have hbody2 := hbody
  simp only [bytesWF, Bool.and_eq_true, List.all_eq_true, decide_eq_true_eq] at hbody2
  have hct2 : rec.content_type.length < 4294967296 := by
    simpa [strWF] using hct
  have hblen : (b64Encode rec.body).length < 4294967296 := by
    rw [b64Encode_length]
    omega
  unfold encResponse
  simp only [List.append_assoc]
  unfold parseResponse
  rw [parseArrLen_arrHeader 4 (by omega)]
  simp only [Option.bind_eq_bind, Option.some_bind]
  simp only [if_true]
  rw [parseUIntVal_encUInt rec.status (by omega)]
  simp only [Option.some_bind]
  rw [parseHeaders_encHeaders rec.headers hheaders]
  simp only [Option.some_bind]
  rw [parseStr_encStr (b64Encode rec.body) hblen]
  simp only [Option.some_bind]
  rw [b64Decode_b64Encode rec.body (fun x hx => hbody2.1 x hx)]
  simp only [Option.some_bind]
  rw [parseStr_encStr rec.content_type hct2]
  simp only [Option.some_bind]

/-- `RequestRecord` round-trip. -/
theorem parseRequest_encRequest (rec : RequestRecord) (hwf : rec.WF = true)
    (r : List Nat) : parseRequest (encRequest rec ++ r) = some (rec, r) := by
  simp only [RequestRecord.WF, Bool.and_eq_true, decide_eq_true_eq] at hwf
  obtain ⟨⟨⟨⟨⟨hmethod, hurl⟩, hheaders⟩, hbody⟩, hresp⟩, hts⟩ := hwf
  have hmethod2 : rec.method.length < 4294967296 := by simpa [strWF] using hmethod
  have hurl2 : rec.url.length < 4294967296 := by simpa [strWF] using hurl
  have hts2 : rec.timestamp.length < 4294967296 := by simpa [strWF] using hts
  unfold encRequest
  simp only [List.append_assoc]
  unfold parseRequest
  rw [parseArrLen_arrHeader 6 (by omega)]
  simp only [Option.bind_eq_bind, Option.some_bind]
  simp only [if_true]
  rw [parseStr_encStr rec.method hmethod2]
  simp only [Option.some_bind]
  rw [parseStr_encStr rec.url hurl2]
  simp only [Option.some_bind]
  rw [parseHeaders_encHeaders rec.headers hheaders]
  simp only [Option.some_bind]
  rw [parseOptBody_encOptBody rec.body hbody]
  simp only [Option.some_bind]
  rw [parseResponse_encResponse rec.response hresp]
  simp only [Option.some_bind]
  rw [parseStr_encStr rec.timestamp hts2]
  simp only [Option.some_bind]

/-- Round-trip of a request sequence. -/
theorem parseRequests_enc (reqs : List RequestRecord)
    (hwf : ∀ rec ∈ reqs, rec.WF = true) (r : List Nat) :
    parseRequests reqs.length (reqs.flatMap encRequest ++ r) = some (reqs, r) := by
  induction reqs generalizing r with
  | nil => rfl
  | cons rec t ih =>
    simp only [List.flatMap_cons, List.length_cons, List.append_assoc]
    unfold parseRequests
    rw [parseRequest_encRequest rec (hwf rec (by simp))]
    simp only [Option.bind_eq_bind, Option.some_bind]
    rw [ih (fun rec2 h2 => hwf rec2 (by simp [h2])) r]
    simp only [Option.some_bind]

/-- `SnapshotMetadata` round-trip. -/
theorem parseMetadata_encMetadata (m : SnapshotMetadata)
    (hname : m.name.length < 4294967296) (hurl : m.url.length < 4294967296)
    (hcreated : m.created_at.length < 4294967296) (hversion : m.version.length < 4294967296)
    (r : List Nat) : parseMetadata (encMetadata m ++ r) = some (m, r) := by
  unfold encMetadata
  simp only [List.append_assoc]
  unfold parseMetadata
  rw [parseArrLen_arrHeader 4 (by omega)]
  simp only [Option.bind_eq_bind, Option.some_bind]
  simp only [if_true]
  rw [parseStr_encStr m.name hname]
  simp only [Option.some_bind]
  rw [parseStr_encStr m.url hurl]
  simp only [Option.some_bind]
  rw [parseStr_encStr m.created_at hcreated]
  simp only [Option.some_bind]
  rw [parseStr_encStr m.version hversion]
  simp only [Option.some_bind]

/-- `SnapshotData` round-trip: parsing the encoding of a well-formed
snapshot's data returns it with the trailing bytes untouched. -/
theorem parseSnapshotData_enc (s : Snapshot) (hwf : s.WF = true) (r : List Nat) :
    parseSnapshotData (encSnapshotData (SnapshotSerializer.toSnapshotData s) ++ r) =
      some (SnapshotSerializer.toSnapshotData s, r) := by
  simp only [Snapshot.WF, strWF, Bool.and_eq_true, List.all_eq_true, decide_eq_true_eq] at hwf
  obtain ⟨⟨⟨⟨hname, hurl⟩, hcreated⟩, hcnt⟩, hreqs⟩ := hwf
  unfold encSnapshotData SnapshotSerializer.toSnapshotData
  simp only [List.append_assoc]
  unfold parseSnapshotData
  rw [parseArrLen_arrHeader 2 (by omega)]
  simp only [Option.bind_eq_bind, Option.some_bind]
  simp only [if_true]
  rw [parseMetadata_encMetadata
    ⟨s.name, s.url, s.created_at, CARGO_PKG_VERSION⟩ hname hurl hcreated
    (show CARGO_PKG_VERSION.length < 4294967296 by decide)]
  simp only [Option.some_bind]
  rw [parseArrLen_arrHeader s.requests.length hcnt]
  simp only [Option.some_bind]
  rw [parseRequests_enc s.requests hreqs]
  simp only [Option.some_bind]

/-- A gzip member is always detected by `is_compressed`. -/
theorem is_compressed_compress (gz : GzipModel) (d : List Nat) :
    SnapshotSerializer.is_compressed (gz.compress d) = true := by
  obtain ⟨rest, heq⟩ := gz.compress_magic d
  rw [heq]
  simp [SnapshotSerializer.is_compressed]

/-- A raw MessagePack snapshot encoding starts with the fixarray(2) marker
`0x92`. -/
theorem encSnapshotData_head (d : SnapshotData) :
    ∃ t, encSnapshotData d = 0x92 :: t :=
  ⟨encMetadata d.metadata ++ (arrHeader d.requests.length ++ d.requests.flatMap encRequest),
    rfl⟩

/-- A raw MessagePack snapshot encoding is never mistaken for gzip. -/
theorem is_compressed_encSnapshotData (d : SnapshotData) :
    SnapshotSerializer.is_compressed (encSnapshotData d) = false := by
  obtain ⟨t, heq⟩ := encSnapshotData_head d
  rw [heq]
  simp [SnapshotSerializer.is_compressed]

end Codec

/-- C1: serializing a snapshot (any name, url, creation timestamp, and any
ordered sequence of exchanges, with optional request bodies and arbitrary
binary bodies) and deserializing the result returns a snapshot equal to the
original — name, url, created_at, and the full request list with methods,
URLs, headers, bodies (byte-for-byte, through their base64 transport
encoding), response status/headers/body/content_type and timestamps all
preserved.  `Snapshot.WF` carries the machine limits of the Rust types and
the formats (bytes < 256, `u16` status, str32/array32/map32 length
bounds). -/
theorem c1_serialize_roundtrip (gz : Codec.GzipModel) (s : Codec.Snapshot)
    (hwf : Codec.Snapshot.WF s = true) :
    Codec.SnapshotSerializer.deserialize gz (Codec.SnapshotSerializer.serialize gz s) =
      some s := by
  have hparse := Codec.parseSnapshotData_enc s hwf []
  rw [List.append_nil] at hparse
  unfold Codec.SnapshotSerializer.serialize Codec.SnapshotSerializer.deserialize
  by_cases hlen :
      (Codec.encSnapshotData (Codec.SnapshotSerializer.toSnapshotData s)).length >
        Codec.COMPRESSION_THRESHOLD
  · rw [if_pos hlen, Codec.is_compressed_compress gz, if_pos rfl, gz.decompress_compress]
    dsimp only
    rw [hparse]
    rfl
  · rw [if_neg hlen, Codec.is_compressed_encSnapshotData, if_neg (by simp)]
    dsimp only
    rw [hparse]
    rfl

/-- Witness for C1: a concrete snapshot with one exchange — a request body
and a binary response body included — round-trips through the serializer
(instantiated with the concrete gzip model `gzId`). -/
theorem c1_serialize_roundtrip_witness :
    Codec.Snapshot.WF
      ⟨ascii "t1", ascii "https://x/", ascii "2024-01-01T00:00:00Z",
        [⟨ascii "GET", ascii "https://x/", [(ascii "h", ascii "v")], some [0, 255],
          ⟨200, [(ascii "content-type", ascii "text/html")], [1, 2, 3, 254],
            ascii "text/html"⟩, ascii "2024-01-01T00:00:00Z"⟩]⟩ = true ∧
    Codec.SnapshotSerializer.deserialize Codec.gzId (Codec.SnapshotSerializer.serialize
      Codec.gzId
      ⟨ascii "t1", ascii "https://x/", ascii "2024-01-01T00:00:00Z",
        [⟨ascii "GET", ascii "https://x/", [(ascii "h", ascii "v")], some [0, 255],
          ⟨200, [(ascii "content-type", ascii "text/html")], [1, 2, 3, 254],
            ascii "text/html"⟩, ascii "2024-01-01T00:00:00Z"⟩]⟩) =
      some ⟨ascii "t1", ascii "https://x/", ascii "2024-01-01T00:00:00Z",
        [⟨ascii "GET", ascii "https://x/", [(ascii "h", ascii "v")], some [0, 255],
          ⟨200, [(ascii "content-type", ascii "text/html")], [1, 2, 3, 254],
            ascii "text/html"⟩, ascii "2024-01-01T00:00:00Z"⟩]⟩ :=
  ⟨by decide,
    c1_serialize_roundtrip Codec.gzId
      ⟨ascii "t1", ascii "https://x/", ascii "2024-01-01T00:00:00Z",
        [⟨ascii "GET", ascii "https://x/", [(ascii "h", ascii "v")], some [0, 255],
          ⟨200, [(ascii "content-type", ascii "text/html")], [1, 2, 3, 254],
            ascii "text/html"⟩, ascii "2024-01-01T00:00:00Z"⟩]⟩ (by decide)⟩

/-- C3: the buffered serializer's output carries the gzip magic `1f 8b` in
its first two bytes exactly when the uncompressed MessagePack encoding is
longer than `COMPRESSION_THRESHOLD` (1 MiB) — so an encoding at most the
threshold (in particular one byte below it) is not gzip-wrapped, and one
above it is — and `is_compressed`, the sole compression test `deserialize`
branches on, holds exactly when the first two bytes are `1f 8b`. -/
theorem c3_compression_threshold (gz : Codec.GzipModel) (s : Codec.Snapshot) :
    ((Codec.SnapshotSerializer.serialize gz s).take 2 = [0x1f, 0x8b] ↔
      (Codec.encSnapshotData (Codec.SnapshotSerializer.toSnapshotData s)).length >
        Codec.COMPRESSION_THRESHOLD) ∧
    (∀ data : List Nat,
      Codec.SnapshotSerializer.is_compressed data = true ↔ data.take 2 = [0x1f, 0x8b]) := by
  constructor
  · unfold Codec.SnapshotSerializer.serialize
    by_cases hlen :
        (Codec.encSnapshotData (Codec.SnapshotSerializer.toSnapshotData s)).length >
          Codec.COMPRESSION_THRESHOLD
    · rw [if_pos hlen]
      obtain ⟨rest, heq⟩ := gz.compress_magic
        (Codec.encSnapshotData (Codec.SnapshotSerializer.toSnapshotData s))
      rw [heq]
      simpa using hlen
    · rw [if_neg hlen]
      obtain ⟨t, heq⟩ := Codec.encSnapshotData_head (Codec.SnapshotSerializer.toSnapshotData s)
      rw [heq] at hlen ⊢
      constructor
      · intro hc
        simp at hc
      · intro hc
        exact absurd hc hlen
  · intro data
    match data with
    | [] => simp [Codec.SnapshotSerializer.is_compressed]
    | [d1] => simp [Codec.SnapshotSerializer.is_compressed]
    | d1 :: d2 :: t =>
      simp [Codec.SnapshotSerializer.is_compressed]

end WebMock
